import Mathlib

/-!
Verification of the qbuf SPSC queue family (lock-free `SPSC`, double-mapped
`MmapSPSC`, `MutexQueue`) against its natural-language specification.

The C++ templates are shallowly embedded: the ring, the two indices and the
element payloads become a pure `QState`; every try-operation becomes a pure
function from state to result-and-state, translated branch-for-branch from
`src/cpp/qbuf/include/qbuf/spsc.hpp`, `src/include/qbuf/mmap_spsc.hpp` and
`src/include/qbuf/mutex_queue.hpp`.  `std::size_t` indices are `Nat`; the
power-of-two wrap masks are kept as `&&&` exactly as in the source.  The
blocking loops are embedded as functions over an explicit schedule: a list of
`Tick`s, one per loop iteration, giving the result of that iteration's
deadline comparison and the state transformation performed by the opposite
thread during the `yield`.  An exhausted schedule models a monotone
`steady_clock` already past the deadline, so every later comparison reports
expiry.  OS interaction of the double-mapped constructor is embedded as a
function of a record of the five OS call outcomes; a C++ function that can
throw returns a `CppResult`, whose `thrown` constructor records a propagated
`std::runtime_error`.
-/

set_option linter.unusedVariables false

namespace Qbuf

/-- Ring-buffer state shared by all back-ends: the `head_` and `tail_`
indices and the `Capacity` slots (`buffer_`).  Payload destruction and
moved-from slots are not observable through the contract, so `buf` keeps the
last value stored in each slot. -/
structure QState (α : Type) where
  head : Nat
  tail : Nat
  buf : List α
deriving Repr, DecidableEq

/-- Contiguous slot writes: `writeRange buf start vals` models
`for (i = 0; i < vals.size; ++i) buffer[start + i] = vals[i]`. -/
def writeRange {α : Type} (buf : List α) (start : Nat) : List α → List α
  | [] => buf
  | v :: vs => writeRange (buf.set start v) (start + 1) vs

/-- Modular slot writes: `writeMod cap buf start vals` writes `vals[i]` into
slot `(start + i) % cap`.  This is the single linear copy through the double
mapping, read back modulo `cap`. -/
def writeMod {α : Type} (cap : Nat) (buf : List α) (start : Nat) : List α → List α
  | [] => buf
  | v :: vs => writeMod cap (buf.set (start % cap) v) (start + 1) vs

/-- Number of occupied slots, as a modular difference of the indices. -/
def occupancy {α : Type} (cap : Nat) (st : QState α) : Nat :=
  (cap + st.tail - st.head) % cap

/-- Free slots under the one-slot-sacrificed convention. -/
def freeSpace {α : Type} (cap : Nat) (st : QState α) : Nat :=
  cap - 1 - occupancy cap st

/-- Abstraction function: the queue contents, read from `head` forward. -/
def absQ {α : Type} [Inhabited α] (cap : Nat) (st : QState α) : List α :=
  (List.range (occupancy cap st)).map (fun i => st.buf.getD ((st.head + i) % cap) default)

/-- The representation invariant every back-end maintains: both indices in
`[0, Capacity)` and a buffer of exactly `Capacity` slots. -/
def Inv {α : Type} (cap : Nat) (st : QState α) : Prop :=
  st.head < cap ∧ st.tail < cap ∧ st.buf.length = cap

instance {α : Type} (cap : Nat) (st : QState α) : Decidable (Inv cap st) := by
  unfold Inv; infer_instance

/-- The freshly constructed queue: `head_ = 0`, `tail_ = 0`. -/
def emptyState (α : Type) [Inhabited α] (cap : Nat) : QState α :=
  ⟨0, 0, List.replicate cap default⟩

/-- Canonical bulk enqueue: store `min count free` elements at the modular
positions following `tail` and advance `tail` modulo `cap`.  Each back-end's
bulk `try_enqueue` is proved equal to this. -/
def canonEnq {α : Type} (cap : Nat) (st : QState α) (data : List α) (count : Nat) :
    Nat × QState α :=
  let k := min count (freeSpace cap st)
  (k, ⟨st.head, (st.tail + k) % cap, writeMod cap st.buf st.tail (data.take k)⟩)

/-- Canonical bulk dequeue: read `min count occupancy` elements from the
modular positions following `head` and advance `head` modulo `cap`. -/
def canonDeq {α : Type} [Inhabited α] (cap : Nat) (st : QState α) (count : Nat) :
    Nat × List α × QState α :=
  let k := min count (occupancy cap st)
  (k, (List.range k).map (fun i => st.buf.getD ((st.head + i) % cap) default),
    ⟨(st.head + k) % cap, st.tail, st.buf⟩)

/-- Result of a single-element enqueue attempt.  `moved` records whether the
operation executed `std::move` on (or copied from) the caller's payload, so
rvalue-safety on failure is visible in the model. -/
structure Enq1Result (α : Type) where
  ok : Bool
  state : QState α
  moved : Bool
deriving Repr, DecidableEq

/-- One iteration of a blocking loop's environment: `expired` is the result
of this iteration's `now() >= deadline` comparison, and `env` is the state
transformation the opposite thread performs while this thread yields. -/
structure Tick (α : Type) where
  expired : Bool
  env : QState α → QState α

/-- A schedule whose environment steps all leave the state alone: the pure
timeout scenario with no concurrent progress. -/
def idTicks (α : Type) (checks : List Bool) : List (Tick α) :=
  checks.map (fun b => ⟨b, id⟩)

namespace SPSC

/-- `SPSC::increment`: `(idx + 1) & (Capacity - 1)`. -/
def increment (cap idx : Nat) : Nat := (idx + 1) &&& (cap - 1)

/-- `SPSC::try_enqueue(T&&)` (the copy overload delegates to it): load
`tail`, compute `next_tail`, fail if it equals `head`, otherwise move the
value into `buffer_[tail]` and publish `next_tail`. -/
def try_enqueue_one {α : Type} (cap : Nat) (st : QState α) (value : α) : Enq1Result α :=
  let current_tail := st.tail
  let next_tail := increment cap current_tail
  if next_tail = st.head then
    ⟨false, st, false⟩
  else
    ⟨true, ⟨st.head, next_tail, st.buf.set current_tail value⟩, true⟩

/-- `SPSC::try_enqueue(const T*, std::size_t)`: compute `available`, bound
the batch, write a first segment from `tail` and, on wrap, a second segment
from slot 0, then publish the new `tail`. -/
def try_enqueue_bulk {α : Type} (cap : Nat) (st : QState α) (data : List α) (count : Nat) :
    Nat × QState α :=
  if count = 0 then (0, st)
  else
    let current_tail := st.tail
    let current_head := st.head
    let available :=
      if current_head ≤ current_tail then (cap - 1) - (current_tail - current_head)
      else current_head - current_tail - 1
    let to_enqueue := if count < available then count else available
    if to_enqueue = 0 then (0, st)
    else
      let first_seg_size :=
        if current_head ≤ current_tail then min to_enqueue (cap - current_tail)
        else min to_enqueue (current_head - current_tail - 1)
      let buf1 := writeRange st.buf current_tail (data.take first_seg_size)
      let tail_idx1 := (current_tail + first_seg_size) &&& (cap - 1)
      let rem := to_enqueue - first_seg_size
      if 0 < rem then
        let second_seg_size := min rem (current_head - 1)
        let buf2 := writeRange buf1 0 ((data.drop first_seg_size).take second_seg_size)
        (first_seg_size + second_seg_size, ⟨current_head, second_seg_size, buf2⟩)
      else
        (first_seg_size, ⟨current_head, tail_idx1, buf1⟩)

/-- `SPSC::try_dequeue()`: fail when `head == tail`, otherwise move
`buffer_[head]` out and publish `increment(head)`. -/
def try_dequeue_one {α : Type} [Inhabited α] (cap : Nat) (st : QState α) :
    Option α × QState α :=
  if st.head = st.tail then (none, st)
  else
    (some (st.buf.getD st.head default), ⟨increment cap st.head, st.tail, st.buf⟩)

/-- `SPSC::try_dequeue(T*, std::size_t)`: compute `available`, bound the
batch, read a first segment from `head` (masking the index only in the wrap
branch, as the source does) and, on wrap, a second segment from slot 0, then
publish the new `head`.  The list returned is the sequence of writes the
source performs into the caller's output buffer. -/
def try_dequeue_bulk {α : Type} [Inhabited α] (cap : Nat) (st : QState α) (count : Nat) :
    Nat × List α × QState α :=
  if count = 0 then (0, [], st)
  else
    let current_head := st.head
    let current_tail := st.tail
    let available :=
      if current_head ≤ current_tail then current_tail - current_head
      else cap - current_head + current_tail
    let to_dequeue := if count < available then count else available
    if to_dequeue = 0 then (0, [], st)
    else
      let first_segment :=
        if current_head ≤ current_tail then min to_dequeue (current_tail - current_head)
        else min to_dequeue (cap - current_head)
      let head_idx1 :=
        if current_head ≤ current_tail then current_head + first_segment
        else (current_head + first_segment) &&& (cap - 1)
      let out1 := (List.range first_segment).map
        (fun i => st.buf.getD (current_head + i) default)
      let rem := to_dequeue - first_segment
      if 0 < rem ∧ head_idx1 = 0 then
        let second_segment := min rem current_tail
        let out2 := (List.range second_segment).map (fun i => st.buf.getD i default)
        (first_segment + second_segment, out1 ++ out2, ⟨second_segment, current_tail, st.buf⟩)
      else
        (first_segment, out1, ⟨head_idx1, current_tail, st.buf⟩)

/-- `SPSC::enqueue(const T&/T&&, duration)`: `while (!try_enqueue(v)) { if
past deadline return false; yield; }`.  The attempt precedes the deadline
check; the environment acts during the yield. -/
def enqueue_one_timed {α : Type} (cap : Nat) (value : α) :
    QState α → List (Tick α) → Bool × QState α
  | st, [] =>
    let r := try_enqueue_one cap st value
    if r.ok then (true, r.state) else (false, st)
  | st, t :: rest =>
    let r := try_enqueue_one cap st value
    if r.ok then (true, r.state)
    else if t.expired then (false, st)
    else enqueue_one_timed cap value (t.env st) rest

/-- `SPSC::dequeue(duration)`: `while (true) { v := try_dequeue(); if v
return v; if past deadline return nullopt; yield; }`. -/
def dequeue_one_timed {α : Type} [Inhabited α] (cap : Nat) :
    QState α → List (Tick α) → Option α × QState α
  | st, [] => try_dequeue_one cap st
  | st, t :: rest =>
    let r := try_dequeue_one cap st
    match r.1 with
    | some v => (some v, r.2)
    | none =>
      if t.expired then (none, st)
      else dequeue_one_timed cap (t.env st) rest

/-- Loop body of `SPSC::enqueue(const T*, std::size_t, duration)`: `while
(total < count) { if past deadline return false; total +=
try_enqueue(data + total, count - total); yield; }`.  Note the deadline is
checked before each attempt. -/
def enqueue_bulk_go {α : Type} (cap : Nat) (data : List α) (count : Nat) :
    QState α → Nat → List (Tick α) → Bool × QState α × Nat
  | st, total, [] => if count ≤ total then (true, st, total) else (false, st, total)
  | st, total, t :: rest =>
    if count ≤ total then (true, st, total)
    else if t.expired then (false, st, total)
    else
      let r := try_enqueue_bulk cap st (data.drop total) (count - total)
      if total + r.1 < count then enqueue_bulk_go cap data count (t.env r.2) (total + r.1) rest
      else (true, r.2, total + r.1)

/-- `SPSC::enqueue(const T*, std::size_t, duration)` with its `count == 0`
early return. -/
def enqueue_bulk_timed {α : Type} (cap : Nat) (st : QState α) (data : List α) (count : Nat)
    (sched : List (Tick α)) : Bool × QState α × Nat :=
  if count = 0 then (true, st, 0)
  else enqueue_bulk_go cap data count st 0 sched

/-- Loop body of `SPSC::dequeue(T*, std::size_t, duration)`; `acc` is the
content of the caller's output buffer written so far. -/
def dequeue_bulk_go {α : Type} [Inhabited α] (cap : Nat) (count : Nat) :
    QState α → Nat → List α → List (Tick α) → Nat × List α × QState α
  | st, total, acc, [] => (total, acc, st)
  | st, total, acc, t :: rest =>
    if count ≤ total then (total, acc, st)
    else if t.expired then (total, acc, st)
    else
      let r := try_dequeue_bulk cap st (count - total)
      if total + r.1 < count then
        dequeue_bulk_go cap count (t.env r.2.2) (total + r.1) (acc ++ r.2.1) rest
      else (total + r.1, acc ++ r.2.1, r.2.2)

/-- `SPSC::dequeue(T*, std::size_t, duration)` with its `count == 0` early
return. -/
def dequeue_bulk_timed {α : Type} [Inhabited α] (cap : Nat) (st : QState α) (count : Nat)
    (sched : List (Tick α)) : Nat × List α × QState α :=
  if count = 0 then (0, [], st)
  else dequeue_bulk_go cap count st 0 [] sched

end SPSC

namespace MmapSPSC

/-- `MmapSPSC::try_enqueue(T&&)` (and the copy overload, whose body is
identical): both indices are loaded before the full check. -/
def try_enqueue_one {α : Type} (cap : Nat) (st : QState α) (value : α) : Enq1Result α :=
  let current_tail := st.tail
  let current_head := st.head
  let next_tail := (current_tail + 1) &&& (cap - 1)
  if next_tail = current_head then
    ⟨false, st, false⟩
  else
    ⟨true, ⟨current_head, next_tail, st.buf.set current_tail value⟩, true⟩

/-- The two placement-new loop lengths of `MmapSPSC::try_enqueue(const T*,
std::size_t)`: `(first_chunk, second_chunk)` for a call in state `st` with
argument `count`.  A nonzero second component is a wrapped second copy. -/
def enqueue_chunks {α : Type} (cap : Nat) (st : QState α) (count : Nat) : Nat × Nat :=
  if count = 0 then (0, 0)
  else
    let available :=
      if st.tail < st.head then st.head - st.tail - 1
      else cap - st.tail + st.head - 1
    let to_write := if count < available then count else available
    if to_write = 0 then (0, 0)
    else
      let first_chunk := if st.tail + to_write ≤ cap then to_write else cap - st.tail
      (first_chunk, to_write - first_chunk)

/-- `MmapSPSC::try_enqueue(const T*, std::size_t)`: the batch is written as
`first_chunk` placements from `tail` followed by `second_chunk` placements
from slot 0, and `(tail + to_write) & (Capacity - 1)` is published. -/
def try_enqueue_bulk {α : Type} (cap : Nat) (st : QState α) (data : List α) (count : Nat) :
    Nat × QState α :=
  if count = 0 then (0, st)
  else
    let available :=
      if st.tail < st.head then st.head - st.tail - 1
      else cap - st.tail + st.head - 1
    let to_write := if count < available then count else available
    if to_write = 0 then (0, st)
    else
      let first_chunk := (enqueue_chunks cap st count).1
      let buf1 := writeRange st.buf st.tail (data.take first_chunk)
      let second_chunk := (enqueue_chunks cap st count).2
      let buf2 := writeRange buf1 0 ((data.drop first_chunk).take second_chunk)
      (to_write, ⟨st.head, (st.tail + to_write) &&& (cap - 1), buf2⟩)

/-- `MmapSPSC::try_dequeue()`: move the element out, destroy the slot and
publish `(head + 1) & (Capacity - 1)`. -/
def try_dequeue_one {α : Type} [Inhabited α] (cap : Nat) (st : QState α) :
    Option α × QState α :=
  if st.head = st.tail then (none, st)
  else
    (some (st.buf.getD st.head default),
      ⟨(st.head + 1) &&& (cap - 1), st.tail, st.buf⟩)

/-- The two read-loop lengths of `MmapSPSC::try_dequeue(T*, std::size_t)`:
`(first_chunk, second_chunk)`. -/
def dequeue_chunks {α : Type} (cap : Nat) (st : QState α) (count : Nat) : Nat × Nat :=
  if count = 0 then (0, 0)
  else
    let available :=
      if st.head ≤ st.tail then st.tail - st.head
      else cap - st.head + st.tail
    let to_read := if count < available then count else available
    if to_read = 0 then (0, 0)
    else
      let first_chunk := if st.head + to_read ≤ cap then to_read else cap - st.head
      (first_chunk, to_read - first_chunk)

/-- `MmapSPSC::try_dequeue(T*, std::size_t)`: read `first_chunk` elements
from `head`, then `second_chunk` from slot 0, destroy the slots and publish
`(head + to_read) & (Capacity - 1)`. -/
def try_dequeue_bulk {α : Type} [Inhabited α] (cap : Nat) (st : QState α) (count : Nat) :
    Nat × List α × QState α :=
  if count = 0 then (0, [], st)
  else
    let available :=
      if st.head ≤ st.tail then st.tail - st.head
      else cap - st.head + st.tail
    let to_read := if count < available then count else available
    if to_read = 0 then (0, [], st)
    else
      let first_chunk := (dequeue_chunks cap st count).1
      let out1 := (List.range first_chunk).map (fun i => st.buf.getD (st.head + i) default)
      let second_chunk := (dequeue_chunks cap st count).2
      let out2 := (List.range second_chunk).map (fun i => st.buf.getD i default)
      (to_read, out1 ++ out2, ⟨(st.head + to_read) &&& (cap - 1), st.tail, st.buf⟩)

/-- Outcome of the five OS calls `MmapSPSC::initialize_mmap` performs on
Linux: `memfd_create`, `ftruncate`, the `PROT_NONE` reservation and the two
`MAP_FIXED` mappings. -/
structure OsEnv where
  memfd_ok : Bool
  ftruncate_ok : Bool
  reserve_ok : Bool
  map1_ok : Bool
  map2_ok : Bool
deriving Repr, DecidableEq

/-- Result of running a C++ function that may throw: either the returned
value or a propagated exception with the `std::runtime_error` message. -/
inductive CppResult (ρ : Type) where
  | ret (value : ρ)
  | thrown (msg : String)
deriving Repr, DecidableEq

/-- All five OS calls succeed. -/
def OsEnv.allOk (env : OsEnv) : Bool :=
  env.memfd_ok && env.ftruncate_ok && env.reserve_ok && env.map1_ok && env.map2_ok

/-- `MmapSPSC::initialize_mmap` (Linux branch): each failing OS call throws
`std::runtime_error` with the corresponding message, after closing or
unmapping what was already acquired. -/
def initialize_mmap (env : OsEnv) : CppResult Unit :=
  if !env.memfd_ok then .thrown "Failed to create memfd"
  else if !env.ftruncate_ok then .thrown "Failed to set memfd size"
  else if !env.reserve_ok then .thrown "Failed to reserve virtual memory"
  else if !env.map1_ok then .thrown "Failed to map first region"
  else if !env.map2_ok then .thrown "Failed to map second region"
  else .ret ()

/-- The `(Sink, Source)` pair returned by the factory; both handles hold the
same freshly constructed queue through a `shared_ptr`. -/
structure Handles (α : Type) where
  queue : QState α
deriving Repr, DecidableEq

/-- `MmapSPSC::create`: construct the queue (whose constructor runs
`initialize_mmap`) and wrap it in the two handles.  An exception thrown by
`initialize_mmap` propagates out of `create`. -/
def create (α : Type) [Inhabited α] (cap : Nat) (env : OsEnv) : CppResult (Handles α) :=
  match initialize_mmap env with
  | .thrown msg => .thrown msg
  | .ret _ => .ret ⟨emptyState α cap⟩

/-- The message of the first failing OS call, in program order. -/
def failMsg (env : OsEnv) : String :=
  if !env.memfd_ok then "Failed to create memfd"
  else if !env.ftruncate_ok then "Failed to set memfd size"
  else if !env.reserve_ok then "Failed to reserve virtual memory"
  else if !env.map1_ok then "Failed to map first region"
  else "Failed to map second region"

end MmapSPSC

namespace MutexQueue

/-- `MutexQueue::next`: `(i + 1) % Capacity` (true modulo; `Capacity` need
not be a power of two). -/
def next (cap i : Nat) : Nat := (i + 1) % cap

/-- `MutexQueue::size_unlocked`. -/
def size_unlocked {α : Type} (cap : Nat) (st : QState α) : Nat :=
  if st.head ≤ st.tail then st.tail - st.head else cap - st.head + st.tail

/-- `MutexQueue::free_unlocked`. -/
def free_unlocked {α : Type} (cap : Nat) (st : QState α) : Nat :=
  (cap - 1) - size_unlocked cap st

/-- `MutexQueue::full_unlocked`. -/
def full_unlocked {α : Type} (cap : Nat) (st : QState α) : Bool :=
  next cap st.tail = st.head

/-- `MutexQueue::try_enqueue` (copy and move overloads share this body). -/
def try_enqueue_one {α : Type} (cap : Nat) (st : QState α) (value : α) : Enq1Result α :=
  if full_unlocked cap st then ⟨false, st, false⟩
  else ⟨true, ⟨st.head, next cap st.tail, st.buf.set st.tail value⟩, true⟩

/-- `MutexQueue::try_enqueue(const T*, std::size_t)`: two `memcpy` segments
under the lock, then `tail_ = (tail_ + n) % Capacity`. -/
def try_enqueue_bulk {α : Type} (cap : Nat) (st : QState α) (data : List α) (count : Nat) :
    Nat × QState α :=
  if count = 0 then (0, st)
  else
    let free := free_unlocked cap st
    let n := if free < count then free else count
    if n = 0 then (0, st)
    else
      let first_segment := if n < cap - st.tail then n else cap - st.tail
      let buf1 := writeRange st.buf st.tail (data.take first_segment)
      let second_segment := n - first_segment
      let buf2 := writeRange buf1 0 ((data.drop first_segment).take second_segment)
      (n, ⟨st.head, (st.tail + n) % cap, buf2⟩)

/-- `MutexQueue::try_dequeue()`. -/
def try_dequeue_one {α : Type} [Inhabited α] (cap : Nat) (st : QState α) :
    Option α × QState α :=
  if st.head = st.tail then (none, st)
  else
    (some (st.buf.getD st.head default), ⟨next cap st.head, st.tail, st.buf⟩)

/-- `MutexQueue::try_dequeue(T*, std::size_t)`: two `memcpy` segments out of
the ring, then `head_ = (head_ + n) % Capacity`. -/
def try_dequeue_bulk {α : Type} [Inhabited α] (cap : Nat) (st : QState α) (count : Nat) :
    Nat × List α × QState α :=
  if count = 0 then (0, [], st)
  else
    let avail := size_unlocked cap st
    let n := if avail < count then avail else count
    if n = 0 then (0, [], st)
    else
      let first_segment := if n < cap - st.head then n else cap - st.head
      let out1 := (List.range first_segment).map (fun i => st.buf.getD (st.head + i) default)
      let second_segment := n - first_segment
      let out2 := (List.range second_segment).map (fun i => st.buf.getD i default)
      (n, out1 ++ out2, ⟨(st.head + n) % cap, st.tail, st.buf⟩)

/-- `MutexQueue::enqueue(const T*, std::size_t, duration)`: an outer loop
accumulating `total`, an inner `wait_until` loop while the queue is full.
A tick is consumed by each condition-variable wait: `expired` is the
`cv_status::timeout` result and `env` is what the consumer did while the
lock was released.  Each transfer copies
`min(free, count - total)` elements in two segments and advances `tail`
modulo `Capacity`. -/
def enqueue_bulk_go {α : Type} (cap : Nat) (data : List α) (count : Nat) :
    QState α → Nat → List (Tick α) → Bool × QState α × Nat
  | st, total, sched =>
    if h1 : count ≤ total then (true, st, total)
    else if h2 : free_unlocked cap st = 0 then
      match sched with
      | [] => (false, st, total)
      | t :: rest =>
        if t.expired then (false, st, total)
        else enqueue_bulk_go cap data count (t.env st) total rest
    else
      let remaining := count - total
      let free := free_unlocked cap st
      let can := if free < remaining then free else remaining
      let first_segment := if can < cap - st.tail then can else cap - st.tail
      let buf1 := writeRange st.buf st.tail ((data.drop total).take first_segment)
      let second_segment := can - first_segment
      let buf2 := writeRange buf1 0 (((data.drop total).drop first_segment).take second_segment)
      enqueue_bulk_go cap data count ⟨st.head, (st.tail + can) % cap, buf2⟩ (total + can) sched
  termination_by st total sched => (sched.length, count - total)
  decreasing_by
  · simp only [List.length_cons]
    exact Prod.Lex.left _ _ (Nat.lt_succ_self _)
  · exact Prod.Lex.right _ (by split <;> omega)

/-- `MutexQueue::enqueue(const T*, std::size_t, duration)` with its
`count == 0` early return. -/
def enqueue_bulk_timed {α : Type} (cap : Nat) (st : QState α) (data : List α) (count : Nat)
    (sched : List (Tick α)) : Bool × QState α × Nat :=
  if count = 0 then (true, st, 0)
  else enqueue_bulk_go cap data count st 0 sched

end MutexQueue

/-- One operation performed through the handles: a single-element or bulk
enqueue through the Sink, or a single-element or bulk dequeue through the
Source.  A bulk enqueue passes the whole array `data` with `count =
data.length`, as the callers do. -/
inductive Op (α : Type) where
  | enq1 (v : α)
  | enqB (data : List α)
  | deq1
  | deqB (count : Nat)

/-- A linearized history: the queue state, the elements accepted by
successful enqueues so far (in order), and the elements returned by
successful dequeues so far (in order). -/
structure Trace (α : Type) where
  state : QState α
  enqs : List α
  deqs : List α

/-- One step of the canonical reference machine. -/
def canonStep {α : Type} [Inhabited α] (cap : Nat) (tr : Trace α) : Op α → Trace α
  | .enq1 v =>
    let r := canonEnq cap tr.state [v] 1
    ⟨r.2, tr.enqs ++ List.take r.1 [v], tr.deqs⟩
  | .enqB data =>
    let r := canonEnq cap tr.state data data.length
    ⟨r.2, tr.enqs ++ data.take r.1, tr.deqs⟩
  | .deq1 =>
    let r := canonDeq cap tr.state 1
    ⟨r.2.2, tr.enqs, tr.deqs ++ r.2.1⟩
  | .deqB count =>
    let r := canonDeq cap tr.state count
    ⟨r.2.2, tr.enqs, tr.deqs ++ r.2.1⟩

def canonRun {α : Type} [Inhabited α] (cap : Nat) (tr : Trace α) : List (Op α) → Trace α
  | [] => tr
  | op :: ops => canonRun cap (canonStep cap tr op) ops

/-- One step through the lock-free `SPSC` operations. -/
def spscStep {α : Type} [Inhabited α] (cap : Nat) (tr : Trace α) : Op α → Trace α
  | .enq1 v =>
    let r := SPSC.try_enqueue_one cap tr.state v
    ⟨r.state, tr.enqs ++ (if r.ok then [v] else []), tr.deqs⟩
  | .enqB data =>
    let r := SPSC.try_enqueue_bulk cap tr.state data data.length
    ⟨r.2, tr.enqs ++ data.take r.1, tr.deqs⟩
  | .deq1 =>
    let r := SPSC.try_dequeue_one cap tr.state
    ⟨r.2, tr.enqs, tr.deqs ++ r.1.toList⟩
  | .deqB count =>
    let r := SPSC.try_dequeue_bulk cap tr.state count
    ⟨r.2.2, tr.enqs, tr.deqs ++ r.2.1⟩

def spscRun {α : Type} [Inhabited α] (cap : Nat) (tr : Trace α) : List (Op α) → Trace α
  | [] => tr
  | op :: ops => spscRun cap (spscStep cap tr op) ops

/-- One step through the double-mapped `MmapSPSC` operations. -/
def mmapStep {α : Type} [Inhabited α] (cap : Nat) (tr : Trace α) : Op α → Trace α
  | .enq1 v =>
    let r := MmapSPSC.try_enqueue_one cap tr.state v
    ⟨r.state, tr.enqs ++ (if r.ok then [v] else []), tr.deqs⟩
  | .enqB data =>
    let r := MmapSPSC.try_enqueue_bulk cap tr.state data data.length
    ⟨r.2, tr.enqs ++ data.take r.1, tr.deqs⟩
  | .deq1 =>
    let r := MmapSPSC.try_dequeue_one cap tr.state
    ⟨r.2, tr.enqs, tr.deqs ++ r.1.toList⟩
  | .deqB count =>
    let r := MmapSPSC.try_dequeue_bulk cap tr.state count
    ⟨r.2.2, tr.enqs, tr.deqs ++ r.2.1⟩

def mmapRun {α : Type} [Inhabited α] (cap : Nat) (tr : Trace α) : List (Op α) → Trace α
  | [] => tr
  | op :: ops => mmapRun cap (mmapStep cap tr op) ops

/-- One step through the `MutexQueue` operations. -/
def mutexStep {α : Type} [Inhabited α] (cap : Nat) (tr : Trace α) : Op α → Trace α
  | .enq1 v =>
    let r := MutexQueue.try_enqueue_one cap tr.state v
    ⟨r.state, tr.enqs ++ (if r.ok then [v] else []), tr.deqs⟩
  | .enqB data =>
    let r := MutexQueue.try_enqueue_bulk cap tr.state data data.length
    ⟨r.2, tr.enqs ++ data.take r.1, tr.deqs⟩
  | .deq1 =>
    let r := MutexQueue.try_dequeue_one cap tr.state
    ⟨r.2, tr.enqs, tr.deqs ++ r.1.toList⟩
  | .deqB count =>
    let r := MutexQueue.try_dequeue_bulk cap tr.state count
    ⟨r.2.2, tr.enqs, tr.deqs ++ r.2.1⟩

def mutexRun {α : Type} [Inhabited α] (cap : Nat) (tr : Trace α) : List (Op α) → Trace α
  | [] => tr
  | op :: ops => mutexRun cap (mutexStep cap tr op) ops

/-- The trace starting from a freshly constructed queue. -/
def initTrace (α : Type) [Inhabited α] (cap : Nat) : Trace α :=
  ⟨emptyState α cap, [], []⟩

/-- The state after `k` single-element `SPSC::try_enqueue` calls on a fresh
queue, enqueuing `f 0, f 1, …`. -/
def enqN {α : Type} [Inhabited α] (cap : Nat) (f : Nat → α) : Nat → QState α
  | 0 => emptyState α cap
  | k + 1 => (SPSC.try_enqueue_one cap (enqN cap f k) (f k)).state

/-- The state after `k` single-element `MmapSPSC::try_enqueue` calls on a
fresh queue. -/
def mmapEnqN {α : Type} [Inhabited α] (cap : Nat) (f : Nat → α) : Nat → QState α
  | 0 => emptyState α cap
  | k + 1 => (MmapSPSC.try_enqueue_one cap (mmapEnqN cap f k) (f k)).state

/-! ### Arithmetic helpers -/

theorem mod_two_cases (a cap : Nat) (h : a < 2 * cap) (hc : 0 < cap) :
    a % cap = if a < cap then a else a - cap := by
  split
  · exact Nat.mod_eq_of_lt (by omega)
  · rw [Nat.mod_eq_sub_mod (by omega), Nat.mod_eq_of_lt (by omega)]

theorem mask_eq_mod {cap : Nat} (n : Nat) (hc : cap = 2 ^ n) (x : Nat) :
    x &&& (cap - 1) = x % cap := by
  subst hc; exact Nat.and_pow_two_sub_one_eq_mod x n

theorem cap_pos {cap : Nat} {n : Nat} (hc : cap = 2 ^ n) : 0 < cap := by
  subst hc; exact Nat.pos_pow_of_pos n (by omega)

/-! ### Buffer-write lemmas -/

theorem length_writeRange {α : Type} (vals : List α) (buf : List α) (start : Nat) :
    (writeRange buf start vals).length = buf.length := by
  induction vals generalizing buf start with
  | nil => rfl
  | cons v vs ih => simpa [writeRange] using ih (buf.set start v) (start + 1)

theorem length_writeMod {α : Type} (cap : Nat) (vals : List α) (buf : List α) (start : Nat) :
    (writeMod cap buf start vals).length = buf.length := by
  induction vals generalizing buf start with
  | nil => rfl
  | cons v vs ih => simpa [writeMod] using ih (buf.set (start % cap) v) (start + 1)

theorem getD_set_of_ne {α : Type} (l : List α) (i j : Nat) (a d : α) (h : i ≠ j) :
    (l.set i a).getD j d = l.getD j d := by
  simp [List.getD_eq_getElem?_getD, List.getElem?_set_ne h]

theorem getD_set_self {α : Type} (l : List α) (i : Nat) (a d : α) (h : i < l.length) :
    (l.set i a).getD i d = a := by
  simp [List.getD_eq_getElem?_getD, List.getElem?_set_self, h]

theorem writeMod_append {α : Type} (cap : Nat) (v1 v2 : List α) (buf : List α) (start : Nat) :
    writeMod cap buf start (v1 ++ v2)
      = writeMod cap (writeMod cap buf start v1) (start + v1.length) v2 := by
  induction v1 generalizing buf start with
  | nil => simp [writeMod]
  | cons v vs ih =>
    simp only [List.cons_append, writeMod, List.length_cons, List.append_eq]
    rw [ih]
    have h1 : start + (vs.length + 1) = start + 1 + vs.length := by omega
    rw [h1]

theorem writeMod_add_cap {α : Type} (cap : Nat) (vals : List α) (buf : List α) (start : Nat) :
    writeMod cap buf (start + cap) vals = writeMod cap buf start vals := by
  induction vals generalizing buf start with
  | nil => rfl
  | cons v vs ih =>
    simp only [writeMod, Nat.add_mod_right]
    have : start + cap + 1 = (start + 1) + cap := by omega
    rw [this, ih]

theorem writeMod_eq_writeRange {α : Type} (cap : Nat) (vals : List α) (buf : List α)
    (start : Nat) (h : start + vals.length ≤ cap) :
    writeMod cap buf start vals = writeRange buf start vals := by
  induction vals generalizing buf start with
  | nil => rfl
  | cons v vs ih =>
    simp only [writeMod, writeRange]
    rw [Nat.mod_eq_of_lt (by simp at h; omega)]
    exact ih (buf.set start v) (start + 1) (by simp at h ⊢; omega)

/-- Any modular batch write of at most `cap` elements starting below `cap`
decomposes into the two contiguous segments the ring implementations use. -/
theorem writeMod_two_seg {α : Type} (cap : Nat) (vals : List α) (buf : List α) (start : Nat)
    (hs : start < cap) (hl : vals.length ≤ cap) :
    writeMod cap buf start vals
      = writeRange (writeRange buf start (vals.take (cap - start))) 0
          (vals.drop (cap - start)) := by
  by_cases hfit : start + vals.length ≤ cap
  · rw [List.take_of_length_le (by omega), List.drop_of_length_le (by omega),
      writeMod_eq_writeRange cap vals buf start hfit]
    rfl
  · conv_lhs => rw [← List.take_append_drop (cap - start) vals]
    rw [writeMod_append]
    have hlen : (vals.take (cap - start)).length = cap - start := by
      simp; omega
    rw [hlen, writeMod_eq_writeRange cap _ buf start (by omega)]
    have hstart : start + (cap - start) = 0 + cap := by omega
    rw [hstart, writeMod_add_cap, writeMod_eq_writeRange cap _ _ 0 (by simp; omega)]

theorem getD_writeRange_lt {α : Type} (vals : List α) (buf : List α) (start p : Nat) (d : α)
    (h : p < start) : (writeRange buf start vals).getD p d = buf.getD p d := by
  induction vals generalizing buf start with
  | nil => rfl
  | cons v vs ih =>
    simp only [writeRange]
    rw [ih _ (start + 1) (by omega), getD_set_of_ne _ _ _ _ _ (by omega)]

theorem getD_writeMod_ne {α : Type} (cap : Nat) (vals : List α) (buf : List α) (start p : Nat)
    (d : α) (h : ∀ j, j < vals.length → (start + j) % cap ≠ p) :
    (writeMod cap buf start vals).getD p d = buf.getD p d := by
  induction vals generalizing buf start with
  | nil => rfl
  | cons v vs ih =>
    simp only [writeMod]
    rw [ih _ (start + 1) (fun j hj => by
      have := h (j + 1) (by simpa using Nat.succ_lt_succ hj)
      simpa [Nat.add_assoc, Nat.add_comm, Nat.add_left_comm] using this)]
    exact getD_set_of_ne _ _ _ _ _ (by simpa using h 0 (by simp))

theorem add_mod_inj (x a b cap : Nat) (ha : a < cap) (hb : b < cap)
    (h : (x + a) % cap = (x + b) % cap) : a = b := by
  have h2 : a ≡ b [MOD cap] := Nat.ModEq.add_left_cancel' x h
  have := h2.eq_of_lt_of_lt ha hb
  exact this

theorem range_map_getD {α : Type} [Inhabited α] (l : List α) :
    (List.range l.length).map (fun i => l.getD i default) = l := by
  apply List.ext_getElem
  · simp
  · intro i h1 h2
    simp [List.getD_eq_getElem?_getD, List.getElem?_eq_getElem h2]

theorem getD_writeMod_at {α : Type} (cap : Nat) (hcap : 0 < cap) (vals : List α)
    (buf : List α) (start j : Nat) (d : α) (hlen : buf.length = cap) (hj : j < vals.length)
    (hdist : ∀ j2, j < j2 → j2 < vals.length → (start + j2) % cap ≠ (start + j) % cap) :
    (writeMod cap buf start vals).getD ((start + j) % cap) d = vals.getD j d := by
  induction vals generalizing buf start j with
  | nil => simp at hj
  | cons v vs ih =>
    match j with
    | 0 =>
      simp only [writeMod]
      rw [getD_writeMod_ne cap vs _ (start + 1) _ d (fun j2 hj2 => by
        have := hdist (j2 + 1) (by omega) (by simpa using Nat.succ_lt_succ hj2)
        simpa [Nat.add_assoc, Nat.add_comm, Nat.add_left_comm] using this)]
      simp only [Nat.add_zero]
      exact getD_set_self _ _ _ _ (by rw [hlen]; exact Nat.mod_lt _ hcap)
    | j + 1 =>
      simp only [writeMod]
      have := ih (buf.set (start % cap) v) (start + 1) j (by simpa using hlen)
        (by simpa using hj)
        (fun j2 h1 h2 => by
          have := hdist (j2 + 1) (by omega) (by simpa using Nat.succ_lt_succ h2)
          simpa [Nat.add_assoc, Nat.add_comm, Nat.add_left_comm] using this)
      simpa [Nat.add_assoc, Nat.add_comm, Nat.add_left_comm, List.getD_cons_succ] using this

/-! ### Occupancy and abstraction lemmas -/

theorem occupancy_spec {α : Type} (cap : Nat) (st : QState α) (h1 : st.head < cap)
    (h2 : st.tail < cap) :
    occupancy cap st
      = if st.head ≤ st.tail then st.tail - st.head else cap - st.head + st.tail := by
  unfold occupancy
  rw [mod_two_cases _ _ (by omega) (by omega)]
  split_ifs <;> omega

theorem occupancy_lt {α : Type} (cap : Nat) (st : QState α) (hc : 0 < cap) :
    occupancy cap st < cap := Nat.mod_lt _ hc

theorem absQ_length {α : Type} [Inhabited α] (cap : Nat) (st : QState α) :
    (absQ cap st).length = occupancy cap st := by
  simp [absQ]

theorem absQ_nil_iff {α : Type} [Inhabited α] (cap : Nat) (st : QState α)
    (hi : Inv cap st) : absQ cap st = [] ↔ st.head = st.tail := by
  obtain ⟨h1, h2, h3⟩ := hi
  rw [← List.length_eq_zero, absQ_length, occupancy_spec cap st h1 h2]
  split_ifs <;> omega

/-- `head` advanced by the occupancy lands on `tail`. -/
theorem head_add_occupancy {α : Type} (cap : Nat) (st : QState α) (h1 : st.head < cap)
    (h2 : st.tail < cap) : (st.head + occupancy cap st) % cap = st.tail := by
  unfold occupancy
  rw [Nat.add_mod_mod]
  have h3 : st.head + (cap + st.tail - st.head) = st.tail + cap := by omega
  rw [h3, Nat.add_mod_right, Nat.mod_eq_of_lt h2]

theorem occupancy_canonEnq (cap head tail k : Nat) (h1 : head < cap)
    (h2 : tail < cap) (hk : k + (cap + tail - head) % cap < cap) :
    (cap + (tail + k) % cap - head) % cap = (cap + tail - head) % cap + k := by
  have e0 : (cap + tail - head) % cap
      = if cap + tail - head < cap then cap + tail - head else cap + tail - head - cap :=
    mod_two_cases _ _ (by omega) (by omega)
  have e1 : (tail + k) % cap = if tail + k < cap then tail + k else tail + k - cap := by
    rw [e0] at hk
    apply mod_two_cases _ _ _ (by omega)
    split_ifs at hk <;> omega
  rw [e1]
  rw [e0] at hk ⊢
  split_ifs at hk ⊢ <;>
    (rw [mod_two_cases _ _ (by omega) (by omega)]; split_ifs <;> omega)

theorem occupancy_canonDeq (cap head tail k : Nat) (h1 : head < cap)
    (h2 : tail < cap) (hk : k ≤ (cap + tail - head) % cap) :
    (cap + tail - (head + k) % cap) % cap = (cap + tail - head) % cap - k := by
  have e0 : (cap + tail - head) % cap
      = if cap + tail - head < cap then cap + tail - head else cap + tail - head - cap :=
    mod_two_cases _ _ (by omega) (by omega)
  have e1 : (head + k) % cap = if head + k < cap then head + k else head + k - cap := by
    rw [e0] at hk
    apply mod_two_cases _ _ _ (by omega)
    split_ifs at hk <;> omega
  rw [e1]
  rw [e0] at hk ⊢
  split_ifs at hk ⊢ <;>
    (rw [mod_two_cases _ _ (by omega) (by omega)]; split_ifs <;> omega)

/-! ### Effects of the canonical operations on the abstract queue -/

theorem canonEnq_inv {α : Type} (cap : Nat) (st : QState α) (data : List α) (count : Nat)
    (hi : Inv cap st) : Inv cap (canonEnq cap st data count).2 := by
  obtain ⟨h1, h2, h3⟩ := hi
  exact ⟨h1, Nat.mod_lt _ (by omega), by simp [canonEnq, length_writeMod, h3]⟩

theorem canonDeq_inv {α : Type} [Inhabited α] (cap : Nat) (st : QState α) (count : Nat)
    (hi : Inv cap st) : Inv cap (canonDeq cap st count).2.2 := by
  obtain ⟨h1, h2, h3⟩ := hi
  exact ⟨Nat.mod_lt _ (by omega), h2, h3⟩

theorem canonEnq_absQ {α : Type} [Inhabited α] (cap : Nat) (st : QState α) (data : List α)
    (count : Nat) (hi : Inv cap st) (hdata : count ≤ data.length) :
    absQ cap (canonEnq cap st data count).2
      = absQ cap st ++ data.take (canonEnq cap st data count).1 := by
  obtain ⟨h1, h2, h3⟩ := hi
  have hc : 0 < cap := by omega
  have hocc : occupancy cap st < cap := occupancy_lt cap st hc
  set k := min count (freeSpace cap st) with hkdef
  have hkfree : k ≤ cap - 1 - occupancy cap st := by
    simp only [hkdef, freeSpace]; omega
  have hkcount : k ≤ count := Nat.min_le_left _ _
  have hkocc : k + occupancy cap st < cap := by omega
  have hlen : (data.take k).length = k := by
    rw [List.length_take]; omega
  have hstate : (canonEnq cap st data count).2
      = ⟨st.head, (st.tail + k) % cap, writeMod cap st.buf st.tail (data.take k)⟩ := rfl
  have hk1 : (canonEnq cap st data count).1 = k := rfl
  rw [hstate, hk1]
  have hocceq : occupancy cap
      (⟨st.head, (st.tail + k) % cap, writeMod cap st.buf st.tail (data.take k)⟩ : QState α)
      = occupancy cap st + k := by
    show (cap + (st.tail + k) % cap - st.head) % cap = occupancy cap st + k
    rw [occupancy_canonEnq cap st.head st.tail k h1 h2 (by simpa [occupancy] using hkocc)]
    rfl
  simp only [absQ]
  rw [hocceq, List.range_add, List.map_append]
  refine congrArg₂ (· ++ ·) ?_ ?_
  · apply List.map_congr_left
    intro i hi2
    rw [List.mem_range] at hi2
    apply getD_writeMod_ne
    intro j hj heq
    rw [hlen] at hj
    have e1 : (st.tail + j) % cap = (st.head + (occupancy cap st + j)) % cap := by
      rw [← Nat.add_assoc]
      conv_rhs => rw [← Nat.mod_add_mod]
      rw [head_add_occupancy cap st h1 h2]
    rw [e1] at heq
    have := add_mod_inj st.head _ _ cap (by omega) (by omega) heq
    omega
  · rw [List.map_map]
    conv_rhs => rw [← range_map_getD (data.take k)]
    rw [hlen]
    apply List.map_congr_left
    intro j hj
    rw [List.mem_range] at hj
    have e1 : (st.head + (occupancy cap st + j)) % cap = (st.tail + j) % cap := by
      rw [← Nat.add_assoc]
      conv_lhs => rw [← Nat.mod_add_mod]
      rw [head_add_occupancy cap st h1 h2]
    show (writeMod cap st.buf st.tail (data.take k)).getD
        ((st.head + (occupancy cap st + j)) % cap) default
      = (data.take k).getD j default
    rw [e1]
    apply getD_writeMod_at cap hc _ _ _ _ _ h3 (by omega)
    intro j2 hgt hlt heq
    rw [hlen] at hlt
    have := add_mod_inj st.tail _ _ cap (by omega) (by omega) heq
    omega

theorem canonDeq_out {α : Type} [Inhabited α] (cap : Nat) (st : QState α) (count : Nat) :
    (canonDeq cap st count).2.1 = (absQ cap st).take (canonDeq cap st count).1 := by
  simp only [canonDeq, absQ]
  rw [← List.map_take, List.take_range]
  congr 2
  omega

theorem canonDeq_absQ {α : Type} [Inhabited α] (cap : Nat) (st : QState α) (count : Nat)
    (hi : Inv cap st) :
    absQ cap (canonDeq cap st count).2.2 = (absQ cap st).drop (canonDeq cap st count).1 := by
  obtain ⟨h1, h2, h3⟩ := hi
  have hc : 0 < cap := by omega
  have hocc : occupancy cap st < cap := occupancy_lt cap st hc
  set k := min count (occupancy cap st) with hkdef
  have hkocc : k ≤ occupancy cap st := Nat.min_le_right _ _
  have hstate : (canonDeq cap st count).2.2
      = ⟨(st.head + k) % cap, st.tail, st.buf⟩ := rfl
  have hk1 : (canonDeq cap st count).1 = k := rfl
  rw [hstate, hk1]
  have hocceq : occupancy cap (⟨(st.head + k) % cap, st.tail, st.buf⟩ : QState α)
      = occupancy cap st - k := by
    show (cap + st.tail - (st.head + k) % cap) % cap = occupancy cap st - k
    rw [occupancy_canonDeq cap st.head st.tail k h1 h2 (by simpa [occupancy] using hkocc)]
    rfl
  simp only [absQ]
  rw [hocceq]
  have hsplit : occupancy cap st = k + (occupancy cap st - k) := by omega
  conv_rhs => rw [hsplit, List.range_add, List.map_append]
  rw [List.drop_append_of_le_length (by simp), ← List.map_drop]
  have hdrop : (List.range k).drop k = [] := by simp
  rw [hdrop, List.map_nil, List.nil_append, List.map_map]
  apply List.map_congr_left
  intro i hi2
  show st.buf.getD (((st.head + k) % cap + i) % cap) default
    = st.buf.getD ((st.head + (k + i)) % cap) default
  rw [Nat.mod_add_mod, Nat.add_assoc]

/-! ### The two-segment copies equal the canonical modular transfer -/

theorem twoSeg_eq_writeMod {α : Type} (cap : Nat) (buf : List α) (tail k : Nat)
    (data : List α) (h2 : tail < cap) (hk : k ≤ cap) :
    writeRange (writeRange buf tail (data.take (min k (cap - tail)))) 0
        ((data.drop (min k (cap - tail))).take (k - min k (cap - tail)))
      = writeMod cap buf tail (data.take k) := by
  rw [writeMod_two_seg cap (data.take k) buf tail h2 (by simp; exact Or.inl hk)]
  by_cases hseg : k ≤ cap - tail
  · have e1 : min k (cap - tail) = k := by omega
    have e3 : (data.take k).take (cap - tail) = data.take k := by
      rw [List.take_take]; congr 1; omega
    have e4 : (data.take k).drop (cap - tail) = [] := by
      apply List.drop_of_length_le; simp; omega
    rw [e1, e3, e4, Nat.sub_self, List.take_zero]
  · have e1 : min k (cap - tail) = cap - tail := by omega
    have e3 : (data.take k).take (cap - tail) = data.take (cap - tail) := by
      rw [List.take_take]; congr 1; omega
    have e4 : (data.take k).drop (cap - tail)
        = (data.drop (cap - tail)).take (k - (cap - tail)) := List.drop_take k (cap - tail) data
    rw [e1, e3, e4]

theorem twoSegOut_eq_mod {α : Type} [Inhabited α] (cap : Nat) (buf : List α) (head k : Nat)
    (h1 : head < cap) (hk : k ≤ cap) :
    (List.range (min k (cap - head))).map (fun i => buf.getD (head + i) default)
        ++ (List.range (k - min k (cap - head))).map (fun i => buf.getD i default)
      = (List.range k).map (fun i => buf.getD ((head + i) % cap) default) := by
  conv_rhs => rw [show k = min k (cap - head) + (k - min k (cap - head)) by omega,
    List.range_add, List.map_append]
  refine congrArg₂ (fun a b : List α => a ++ b) ?_ ?_
  · apply List.map_congr_left
    intro i hi2
    rw [List.mem_range] at hi2
    rw [Nat.mod_eq_of_lt (by omega)]
  · rw [List.map_map]
    apply List.map_congr_left
    intro i hi2
    rw [List.mem_range] at hi2
    show buf.getD i default = buf.getD ((head + (min k (cap - head) + i)) % cap) default
    have e1 : min k (cap - head) = cap - head := by omega
    have e2 : head + (min k (cap - head) + i) = i + cap := by omega
    rw [e2, Nat.add_mod_right, Nat.mod_eq_of_lt (by omega)]

/-! ### MutexQueue operations refine the canonical operations -/

theorem mutex_size_eq_occupancy {α : Type} (cap : Nat) (st : QState α) (h1 : st.head < cap)
    (h2 : st.tail < cap) : MutexQueue.size_unlocked cap st = occupancy cap st := by
  rw [occupancy_spec cap st h1 h2]
  rfl

theorem mutex_free_eq_freeSpace {α : Type} (cap : Nat) (st : QState α) (h1 : st.head < cap)
    (h2 : st.tail < cap) : MutexQueue.free_unlocked cap st = freeSpace cap st := by
  unfold MutexQueue.free_unlocked freeSpace
  rw [mutex_size_eq_occupancy cap st h1 h2]

theorem mutex_enqB_eq_canon {α : Type} (cap : Nat) (st : QState α) (data : List α)
    (count : Nat) (hi : Inv cap st) :
    MutexQueue.try_enqueue_bulk cap st data count = canonEnq cap st data count := by
  obtain ⟨h1, h2, h3⟩ := hi
  have hc : 0 < cap := by omega
  have hocc : occupancy cap st < cap := occupancy_lt cap st hc
  have hfs : freeSpace cap st = cap - 1 - occupancy cap st := rfl
  have hmodt : (st.tail + 0) % cap = st.tail := by
    rw [Nat.add_zero, Nat.mod_eq_of_lt h2]
  simp only [MutexQueue.try_enqueue_bulk, canonEnq,
    mutex_free_eq_freeSpace cap st h1 h2]
  have hn : (if freeSpace cap st < count then freeSpace cap st else count)
      = min count (freeSpace cap st) := by split <;> omega
  rw [hn]
  by_cases hc0 : count = 0
  · subst hc0
    simp [writeMod, Nat.mod_eq_of_lt h2]
  · rw [if_neg hc0]
    by_cases hk0 : min count (freeSpace cap st) = 0
    · simp [hk0, writeMod, Nat.mod_eq_of_lt h2]
    · rw [if_neg hk0]
      set k := min count (freeSpace cap st) with hkdef
      have hkcap : k ≤ cap := by omega
      have hfseg : (if k < cap - st.tail then k else cap - st.tail) = min k (cap - st.tail) := by
        split <;> omega
      rw [hfseg]
      refine congrArg₂ Prod.mk rfl ?_
      refine congrArg₂ (fun t b => QState.mk st.head t b) rfl ?_
      exact twoSeg_eq_writeMod cap st.buf st.tail k data h2 hkcap

theorem mutex_deqB_eq_canon {α : Type} [Inhabited α] (cap : Nat) (st : QState α)
    (count : Nat) (hi : Inv cap st) :
    MutexQueue.try_dequeue_bulk cap st count = canonDeq cap st count := by
  obtain ⟨h1, h2, h3⟩ := hi
  have hc : 0 < cap := by omega
  have hocc : occupancy cap st < cap := occupancy_lt cap st hc
  have hmodh : (st.head + 0) % cap = st.head := by
    rw [Nat.add_zero, Nat.mod_eq_of_lt h1]
  simp only [MutexQueue.try_dequeue_bulk, canonDeq,
    mutex_size_eq_occupancy cap st h1 h2]
  have hn : (if occupancy cap st < count then occupancy cap st else count)
      = min count (occupancy cap st) := by split <;> omega
  rw [hn]
  by_cases hc0 : count = 0
  · subst hc0
    simp [Nat.mod_eq_of_lt h1]
  · rw [if_neg hc0]
    by_cases hk0 : min count (occupancy cap st) = 0
    · simp [hk0, Nat.mod_eq_of_lt h1]
    · rw [if_neg hk0]
      set k := min count (occupancy cap st) with hkdef
      have hkcap : k ≤ cap := by omega
      have hfseg : (if k < cap - st.head then k else cap - st.head) = min k (cap - st.head) := by
        split <;> omega
      rw [hfseg]
      refine congrArg₂ Prod.mk rfl (congrArg₂ Prod.mk ?_ rfl)
      exact twoSegOut_eq_mod cap st.buf st.head k h1 hkcap

/-! ### SPSC operations refine the canonical operations -/

theorem spsc_enqB_eq_canon {α : Type} (cap n : Nat) (hcap : cap = 2 ^ n) (st : QState α)
    (data : List α) (count : Nat) (hi : Inv cap st) :
    SPSC.try_enqueue_bulk cap st data count = canonEnq cap st data count := by
  obtain ⟨h1, h2, h3⟩ := hi
  have hc : 0 < cap := cap_pos hcap
  have hocc : occupancy cap st < cap := occupancy_lt cap st hc
  have hoccs := occupancy_spec cap st h1 h2
  simp only [SPSC.try_enqueue_bulk, canonEnq, mask_eq_mod n hcap]
  have havail : (if st.head ≤ st.tail then (cap - 1) - (st.tail - st.head)
      else st.head - st.tail - 1) = freeSpace cap st := by
    simp only [freeSpace]
    rw [hoccs]
    split_ifs <;> omega
  rw [havail]
  have hto : (if count < freeSpace cap st then count else freeSpace cap st)
      = min count (freeSpace cap st) := by split <;> omega
  rw [hto]
  by_cases hc0 : count = 0
  · subst hc0
    simp [writeMod, Nat.mod_eq_of_lt h2]
  · rw [if_neg hc0]
    by_cases hk0 : min count (freeSpace cap st) = 0
    · simp [hk0, writeMod, Nat.mod_eq_of_lt h2]
    · rw [if_neg hk0]
      set k := min count (freeSpace cap st) with hkdef
      have hkfs : k ≤ freeSpace cap st := Nat.min_le_right _ _
      have hkfs2 : k ≤ cap - 1 - occupancy cap st := by
        simpa [freeSpace] using hkfs
      have hkcap : k ≤ cap := by omega
      by_cases hht : st.head ≤ st.tail
      · have hoccv : occupancy cap st = st.tail - st.head := by rw [hoccs, if_pos hht]
        rw [if_pos hht]
        by_cases hrem : 0 < k - min k (cap - st.tail)
        · rw [if_pos hrem]
          have hsec : min (k - min k (cap - st.tail)) (st.head - 1)
              = k - min k (cap - st.tail) := by omega
          have emod : (st.tail + k) % cap = st.tail + k - cap := by
            rw [mod_two_cases _ _ (by omega) hc, if_neg (by omega)]
          refine congrArg₂ Prod.mk (by omega) ?_
          refine congrArg₂ (fun t b => QState.mk st.head t b) (by omega) ?_
          rw [hsec]
          exact twoSeg_eq_writeMod cap st.buf st.tail k data h2 hkcap
        · rw [if_neg hrem]
          have hmin : min k (cap - st.tail) = k := by omega
          rw [hmin]
          refine congrArg₂ Prod.mk rfl ?_
          refine congrArg₂ (fun t b => QState.mk st.head t b) rfl ?_
          rw [writeMod_eq_writeRange cap _ _ _ (by simp; omega)]
      · have hoccv : occupancy cap st = cap - st.head + st.tail := by rw [hoccs, if_neg hht]
        rw [if_neg hht]
        have hmin : min k (st.head - st.tail - 1) = k := by omega
        rw [hmin]
        rw [if_neg (by omega : ¬ 0 < k - k)]
        refine congrArg₂ Prod.mk rfl ?_
        refine congrArg₂ (fun t b => QState.mk st.head t b) rfl ?_
        rw [writeMod_eq_writeRange cap _ _ _ (by simp; omega)]

theorem spsc_deqB_eq_canon {α : Type} [Inhabited α] (cap n : Nat) (hcap : cap = 2 ^ n)
    (st : QState α) (count : Nat) (hi : Inv cap st) :
    SPSC.try_dequeue_bulk cap st count = canonDeq cap st count := by
  obtain ⟨h1, h2, h3⟩ := hi
  have hc : 0 < cap := cap_pos hcap
  have hocc : occupancy cap st < cap := occupancy_lt cap st hc
  have hoccs := occupancy_spec cap st h1 h2
  simp only [SPSC.try_dequeue_bulk, canonDeq, mask_eq_mod n hcap]
  have havail : (if st.head ≤ st.tail then st.tail - st.head
      else cap - st.head + st.tail) = occupancy cap st := by
    rw [hoccs]
  rw [havail]
  have hto : (if count < occupancy cap st then count else occupancy cap st)
      = min count (occupancy cap st) := by split <;> omega
  rw [hto]
  by_cases hc0 : count = 0
  · subst hc0
    simp [Nat.mod_eq_of_lt h1]
  · rw [if_neg hc0]
    by_cases hk0 : min count (occupancy cap st) = 0
    · simp [hk0, Nat.mod_eq_of_lt h1]
    · rw [if_neg hk0]
      set k := min count (occupancy cap st) with hkdef
      have hkocc : k ≤ occupancy cap st := Nat.min_le_right _ _
      have hkcap : k ≤ cap := by omega
      by_cases hht : st.head ≤ st.tail
      · have hoccv : occupancy cap st = st.tail - st.head := by rw [hoccs, if_pos hht]
        simp only [if_pos hht]
        have hmin : min k (st.tail - st.head) = k := by omega
        rw [hmin]
        rw [if_neg (by omega : ¬ (0 < k - k ∧ st.head + k = 0))]
        refine congrArg₂ Prod.mk rfl (congrArg₂ Prod.mk ?_ ?_)
        · apply List.map_congr_left
          intro i hi2
          rw [List.mem_range] at hi2
          rw [Nat.mod_eq_of_lt (by omega)]
        · refine congrArg₂ (fun h b => QState.mk h st.tail b) ?_ rfl
          rw [Nat.mod_eq_of_lt (by omega)]
      · have hoccv : occupancy cap st = cap - st.head + st.tail := by rw [hoccs, if_neg hht]
        simp only [if_neg hht]
        by_cases hwrap : k ≤ cap - st.head
        · have hmin : min k (cap - st.head) = k := by omega
          rw [hmin]
          rw [if_neg (by
            intro hand
            obtain ⟨ha, hb⟩ := hand
            omega)]
          refine congrArg₂ Prod.mk rfl (congrArg₂ Prod.mk ?_ rfl)
          apply List.map_congr_left
          intro i hi2
          rw [List.mem_range] at hi2
          rw [Nat.mod_eq_of_lt (by omega)]
        · have hcond : 0 < k - min k (cap - st.head)
              ∧ (st.head + min k (cap - st.head)) % cap = 0 := by
            constructor
            · omega
            · have e1 : st.head + min k (cap - st.head) = cap := by omega
              rw [e1, Nat.mod_self]
          rw [if_pos hcond]
          have hsec : min (k - min k (cap - st.head)) st.tail
              = k - min k (cap - st.head) := by omega
          have emod : (st.head + k) % cap = st.head + k - cap := by
            rw [mod_two_cases _ _ (by omega) hc, if_neg (by omega)]
          rw [hsec]
          refine congrArg₂ Prod.mk (by omega) (congrArg₂ Prod.mk ?_ ?_)
          · exact twoSegOut_eq_mod cap st.buf st.head k h1 hkcap
          · refine congrArg₂ (fun h b => QState.mk h st.tail b) (by omega) rfl

/-! ### MmapSPSC operations refine the canonical operations -/

theorem mmap_enqueue_chunks_spec {α : Type} (cap : Nat) (st : QState α) (count : Nat)
    (h1 : st.head < cap) (h2 : st.tail < cap) :
    MmapSPSC.enqueue_chunks cap st count
      = (min (min count (freeSpace cap st)) (cap - st.tail),
         min count (freeSpace cap st) - min (min count (freeSpace cap st)) (cap - st.tail)) := by
  have hoccs := occupancy_spec cap st h1 h2
  have hocc : occupancy cap st < cap := occupancy_lt cap st (by omega)
  simp only [MmapSPSC.enqueue_chunks]
  have havail : (if st.tail < st.head then st.head - st.tail - 1
      else cap - st.tail + st.head - 1) = freeSpace cap st := by
    simp only [freeSpace]
    rw [hoccs]
    split_ifs <;> omega
  rw [havail]
  have hto : (if count < freeSpace cap st then count else freeSpace cap st)
      = min count (freeSpace cap st) := by split <;> omega
  rw [hto]
  by_cases hc0 : count = 0
  · subst hc0
    simp
  · rw [if_neg hc0]
    by_cases hk0 : min count (freeSpace cap st) = 0
    · rw [if_pos hk0, hk0]
      simp
    · rw [if_neg hk0]
      have hfc : (if st.tail + min count (freeSpace cap st) ≤ cap
          then min count (freeSpace cap st) else cap - st.tail)
          = min (min count (freeSpace cap st)) (cap - st.tail) := by
        split <;> omega
      rw [hfc]

theorem mmap_dequeue_chunks_spec {α : Type} (cap : Nat) (st : QState α) (count : Nat)
    (h1 : st.head < cap) (h2 : st.tail < cap) :
    MmapSPSC.dequeue_chunks cap st count
      = (min (min count (occupancy cap st)) (cap - st.head),
         min count (occupancy cap st) - min (min count (occupancy cap st)) (cap - st.head)) := by
  have hoccs := occupancy_spec cap st h1 h2
  have hocc : occupancy cap st < cap := occupancy_lt cap st (by omega)
  simp only [MmapSPSC.dequeue_chunks]
  have havail : (if st.head ≤ st.tail then st.tail - st.head
      else cap - st.head + st.tail) = occupancy cap st := by
    rw [hoccs]
  rw [havail]
  have hto : (if count < occupancy cap st then count else occupancy cap st)
      = min count (occupancy cap st) := by split <;> omega
  rw [hto]
  by_cases hc0 : count = 0
  · subst hc0
    simp
  · rw [if_neg hc0]
    by_cases hk0 : min count (occupancy cap st) = 0
    · rw [if_pos hk0, hk0]
      simp
    · rw [if_neg hk0]
      have hfc : (if st.head + min count (occupancy cap st) ≤ cap
          then min count (occupancy cap st) else cap - st.head)
          = min (min count (occupancy cap st)) (cap - st.head) := by
        split <;> omega
      rw [hfc]

theorem mmap_enqB_eq_canon {α : Type} (cap n : Nat) (hcap : cap = 2 ^ n) (st : QState α)
    (data : List α) (count : Nat) (hi : Inv cap st) :
    MmapSPSC.try_enqueue_bulk cap st data count = canonEnq cap st data count := by
  obtain ⟨h1, h2, h3⟩ := hi
  have hc : 0 < cap := cap_pos hcap
  have hocc : occupancy cap st < cap := occupancy_lt cap st hc
  have hoccs := occupancy_spec cap st h1 h2
  simp only [MmapSPSC.try_enqueue_bulk, canonEnq, mask_eq_mod n hcap,
    mmap_enqueue_chunks_spec cap st count h1 h2]
  have havail : (if st.tail < st.head then st.head - st.tail - 1
      else cap - st.tail + st.head - 1) = freeSpace cap st := by
    simp only [freeSpace]
    rw [hoccs]
    split_ifs <;> omega
  rw [havail]
  have hto : (if count < freeSpace cap st then count else freeSpace cap st)
      = min count (freeSpace cap st) := by split <;> omega
  rw [hto]
  by_cases hc0 : count = 0
  · subst hc0
    simp [writeMod, Nat.mod_eq_of_lt h2]
  · rw [if_neg hc0]
    by_cases hk0 : min count (freeSpace cap st) = 0
    · simp [hk0, writeMod, Nat.mod_eq_of_lt h2]
    · rw [if_neg hk0]
      set k := min count (freeSpace cap st) with hkdef
      have hkfs : k ≤ freeSpace cap st := Nat.min_le_right _ _
      have hkcap : k ≤ cap := by
        simp only [freeSpace] at hkfs
        omega
      refine congrArg₂ Prod.mk rfl ?_
      refine congrArg₂ (fun t b => QState.mk st.head t b) rfl ?_
      exact twoSeg_eq_writeMod cap st.buf st.tail k data h2 hkcap

theorem mmap_deqB_eq_canon {α : Type} [Inhabited α] (cap n : Nat) (hcap : cap = 2 ^ n)
    (st : QState α) (count : Nat) (hi : Inv cap st) :
    MmapSPSC.try_dequeue_bulk cap st count = canonDeq cap st count := by
  obtain ⟨h1, h2, h3⟩ := hi
  have hc : 0 < cap := cap_pos hcap
  have hocc : occupancy cap st < cap := occupancy_lt cap st hc
  have hoccs := occupancy_spec cap st h1 h2
  simp only [MmapSPSC.try_dequeue_bulk, canonDeq, mask_eq_mod n hcap,
    mmap_dequeue_chunks_spec cap st count h1 h2]
  have havail : (if st.head ≤ st.tail then st.tail - st.head
      else cap - st.head + st.tail) = occupancy cap st := by
    rw [hoccs]
  rw [havail]
  have hto : (if count < occupancy cap st then count else occupancy cap st)
      = min count (occupancy cap st) := by split <;> omega
  rw [hto]
  by_cases hc0 : count = 0
  · subst hc0
    simp [Nat.mod_eq_of_lt h1]
  · rw [if_neg hc0]
    by_cases hk0 : min count (occupancy cap st) = 0
    · simp [hk0, Nat.mod_eq_of_lt h1]
    · rw [if_neg hk0]
      set k := min count (occupancy cap st) with hkdef
      have hkocc : k ≤ occupancy cap st := Nat.min_le_right _ _
      have hkcap : k ≤ cap := by omega
      refine congrArg₂ Prod.mk rfl (congrArg₂ Prod.mk ?_ rfl)
      exact twoSegOut_eq_mod cap st.buf st.head k h1 hkcap

/-! ### Single-element operations refine the canonical operations -/

theorem next_eq_head_iff {α : Type} (cap : Nat) (st : QState α) (h1 : st.head < cap)
    (h2 : st.tail < cap) : ((st.tail + 1) % cap = st.head) ↔ freeSpace cap st = 0 := by
  have hoccs := occupancy_spec cap st h1 h2
  have e1 : (st.tail + 1) % cap
      = if st.tail + 1 < cap then st.tail + 1 else st.tail + 1 - cap :=
    mod_two_cases _ _ (by omega) (by omega)
  simp only [freeSpace]
  rw [e1, hoccs]
  split_ifs <;> omega

theorem head_eq_tail_iff_occ {α : Type} (cap : Nat) (st : QState α) (h1 : st.head < cap)
    (h2 : st.tail < cap) : st.head = st.tail ↔ occupancy cap st = 0 := by
  rw [occupancy_spec cap st h1 h2]
  split_ifs <;> omega

theorem spsc_enq1_eq_canon {α : Type} (cap n : Nat) (hcap : cap = 2 ^ n) (st : QState α)
    (v : α) (hi : Inv cap st) :
    SPSC.try_enqueue_one cap st v
      = if 0 < freeSpace cap st then ⟨true, (canonEnq cap st [v] 1).2, true⟩
        else ⟨false, st, false⟩ := by
  obtain ⟨h1, h2, h3⟩ := hi
  have hc : 0 < cap := cap_pos hcap
  have hiff := next_eq_head_iff cap st h1 h2
  simp only [SPSC.try_enqueue_one, SPSC.increment, mask_eq_mod n hcap, canonEnq]
  split_ifs with ha hb
  · omega
  · rfl
  · have hm : min 1 (freeSpace cap st) = 1 := by omega
    simp [hm, writeMod, Nat.mod_eq_of_lt h2]
  · omega

theorem spsc_deq1_eq_canon {α : Type} [Inhabited α] (cap n : Nat) (hcap : cap = 2 ^ n)
    (st : QState α) (hi : Inv cap st) :
    SPSC.try_dequeue_one cap st
      = ((canonDeq cap st 1).2.1.head?, (canonDeq cap st 1).2.2) := by
  obtain ⟨h1, h2, h3⟩ := hi
  have hc : 0 < cap := cap_pos hcap
  have hiff := head_eq_tail_iff_occ cap st h1 h2
  simp only [SPSC.try_dequeue_one, SPSC.increment, mask_eq_mod n hcap, canonDeq]
  split_ifs with ha
  · have h0 : min 1 (occupancy cap st) = 0 := by omega
    simp [h0, Nat.mod_eq_of_lt h1]
  · have h0 : min 1 (occupancy cap st) = 1 := by omega
    have hr1 : List.range 1 = [0] := rfl
    simp [h0, hr1, Nat.mod_eq_of_lt h1]

theorem mmap_enq1_eq_canon {α : Type} (cap n : Nat) (hcap : cap = 2 ^ n) (st : QState α)
    (v : α) (hi : Inv cap st) :
    MmapSPSC.try_enqueue_one cap st v
      = if 0 < freeSpace cap st then ⟨true, (canonEnq cap st [v] 1).2, true⟩
        else ⟨false, st, false⟩ := by
  obtain ⟨h1, h2, h3⟩ := hi
  have hc : 0 < cap := cap_pos hcap
  have hiff := next_eq_head_iff cap st h1 h2
  simp only [MmapSPSC.try_enqueue_one, mask_eq_mod n hcap, canonEnq]
  split_ifs with ha hb
  · omega
  · rfl
  · have hm : min 1 (freeSpace cap st) = 1 := by omega
    simp [hm, writeMod, Nat.mod_eq_of_lt h2]
  · omega

theorem mmap_deq1_eq_canon {α : Type} [Inhabited α] (cap n : Nat) (hcap : cap = 2 ^ n)
    (st : QState α) (hi : Inv cap st) :
    MmapSPSC.try_dequeue_one cap st
      = ((canonDeq cap st 1).2.1.head?, (canonDeq cap st 1).2.2) := by
  obtain ⟨h1, h2, h3⟩ := hi
  have hc : 0 < cap := cap_pos hcap
  have hiff := head_eq_tail_iff_occ cap st h1 h2
  simp only [MmapSPSC.try_dequeue_one, mask_eq_mod n hcap, canonDeq]
  split_ifs with ha
  · have h0 : min 1 (occupancy cap st) = 0 := by omega
    simp [h0, Nat.mod_eq_of_lt h1]
  · have h0 : min 1 (occupancy cap st) = 1 := by omega
    have hr1 : List.range 1 = [0] := rfl
    simp [h0, hr1, Nat.mod_eq_of_lt h1]

theorem mutex_enq1_eq_canon {α : Type} (cap : Nat) (st : QState α) (v : α)
    (hi : Inv cap st) :
    MutexQueue.try_enqueue_one cap st v
      = if 0 < freeSpace cap st then ⟨true, (canonEnq cap st [v] 1).2, true⟩
        else ⟨false, st, false⟩ := by
  obtain ⟨h1, h2, h3⟩ := hi
  have hc : 0 < cap := by omega
  have hiff := next_eq_head_iff cap st h1 h2
  simp only [MutexQueue.try_enqueue_one, MutexQueue.full_unlocked, MutexQueue.next,
    canonEnq, decide_eq_true_eq]
  split_ifs with ha hb
  · omega
  · rfl
  · have hm : min 1 (freeSpace cap st) = 1 := by omega
    simp [hm, writeMod, Nat.mod_eq_of_lt h2]
  · omega

theorem mutex_deq1_eq_canon {α : Type} [Inhabited α] (cap : Nat) (st : QState α)
    (hi : Inv cap st) :
    MutexQueue.try_dequeue_one cap st
      = ((canonDeq cap st 1).2.1.head?, (canonDeq cap st 1).2.2) := by
  obtain ⟨h1, h2, h3⟩ := hi
  have hc : 0 < cap := by omega
  have hiff := head_eq_tail_iff_occ cap st h1 h2
  simp only [MutexQueue.try_dequeue_one, MutexQueue.next, canonDeq]
  split_ifs with ha
  · have h0 : min 1 (occupancy cap st) = 0 := by omega
    simp [h0, Nat.mod_eq_of_lt h1]
  · have h0 : min 1 (occupancy cap st) = 1 := by omega
    have hr1 : List.range 1 = [0] := rfl
    simp [h0, hr1, Nat.mod_eq_of_lt h1]

/-! ### Trace invariant: dequeues are a prefix of enqueues -/

theorem canonStep_inv {α : Type} [Inhabited α] (cap : Nat) (tr : Trace α) (op : Op α)
    (hi : Inv cap tr.state) : Inv cap (canonStep cap tr op).state := by
  cases op with
  | enq1 v => exact canonEnq_inv cap tr.state [v] 1 hi
  | enqB data => exact canonEnq_inv cap tr.state data data.length hi
  | deq1 => exact canonDeq_inv cap tr.state 1 hi
  | deqB count => exact canonDeq_inv cap tr.state count hi

theorem canonStep_fifo {α : Type} [Inhabited α] (cap : Nat) (tr : Trace α) (op : Op α)
    (hi : Inv cap tr.state) (hf : tr.enqs = tr.deqs ++ absQ cap tr.state) :
    (canonStep cap tr op).enqs
      = (canonStep cap tr op).deqs ++ absQ cap (canonStep cap tr op).state := by
  cases op with
  | enq1 v =>
    show tr.enqs ++ List.take (canonEnq cap tr.state [v] 1).1 [v]
      = tr.deqs ++ absQ cap (canonEnq cap tr.state [v] 1).2
    rw [canonEnq_absQ cap tr.state [v] 1 hi (by simp), hf, List.append_assoc]
  | enqB data =>
    show tr.enqs ++ data.take (canonEnq cap tr.state data data.length).1
      = tr.deqs ++ absQ cap (canonEnq cap tr.state data data.length).2
    rw [canonEnq_absQ cap tr.state data data.length hi (Nat.le_refl _), hf,
      List.append_assoc]
  | deq1 =>
    show tr.enqs = (tr.deqs ++ (canonDeq cap tr.state 1).2.1)
      ++ absQ cap (canonDeq cap tr.state 1).2.2
    rw [canonDeq_absQ cap tr.state 1 hi, canonDeq_out cap tr.state 1, hf,
      List.append_assoc, List.take_append_drop]
  | deqB count =>
    show tr.enqs = (tr.deqs ++ (canonDeq cap tr.state count).2.1)
      ++ absQ cap (canonDeq cap tr.state count).2.2
    rw [canonDeq_absQ cap tr.state count hi, canonDeq_out cap tr.state count, hf,
      List.append_assoc, List.take_append_drop]

theorem canonRun_spec {α : Type} [Inhabited α] (cap : Nat) (ops : List (Op α)) :
    ∀ tr : Trace α, Inv cap tr.state → tr.enqs = tr.deqs ++ absQ cap tr.state →
      Inv cap (canonRun cap tr ops).state ∧
        (canonRun cap tr ops).enqs
          = (canonRun cap tr ops).deqs ++ absQ cap (canonRun cap tr ops).state := by
  induction ops with
  | nil => exact fun tr hi hf => ⟨hi, hf⟩
  | cons op ops ih =>
    intro tr hi hf
    exact ih _ (canonStep_inv cap tr op hi) (canonStep_fifo cap tr op hi hf)

theorem spscStep_eq_canonStep {α : Type} [Inhabited α] (cap n : Nat) (hcap : cap = 2 ^ n)
    (tr : Trace α) (op : Op α) (hi : Inv cap tr.state) :
    spscStep cap tr op = canonStep cap tr op := by
  obtain ⟨h1, h2, h3⟩ := hi
  have hc : 0 < cap := cap_pos hcap
  cases op with
  | enq1 v =>
    simp only [spscStep, canonStep, spsc_enq1_eq_canon cap n hcap tr.state v ⟨h1, h2, h3⟩]
    by_cases hfree : 0 < freeSpace cap tr.state
    · rw [if_pos hfree]
      have hk : min 1 (freeSpace cap tr.state) = 1 := by omega
      simp [canonEnq, hk]
    · rw [if_neg hfree]
      have hk : min 1 (freeSpace cap tr.state) = 0 := by omega
      simp [canonEnq, hk, writeMod, Nat.mod_eq_of_lt h2]
  | enqB data =>
    simp only [spscStep, canonStep,
      spsc_enqB_eq_canon cap n hcap tr.state data data.length ⟨h1, h2, h3⟩]
  | deq1 =>
    simp only [spscStep, canonStep, spsc_deq1_eq_canon cap n hcap tr.state ⟨h1, h2, h3⟩]
    by_cases hocc : occupancy cap tr.state = 0
    · have hk : min 1 (occupancy cap tr.state) = 0 := by omega
      simp [canonDeq, hk]
    · have hk : min 1 (occupancy cap tr.state) = 1 := by omega
      have hr1 : List.range 1 = [0] := rfl
      simp [canonDeq, hk, hr1]
  | deqB count =>
    simp only [spscStep, canonStep,
      spsc_deqB_eq_canon cap n hcap tr.state count ⟨h1, h2, h3⟩]

theorem mmapStep_eq_canonStep {α : Type} [Inhabited α] (cap n : Nat) (hcap : cap = 2 ^ n)
    (tr : Trace α) (op : Op α) (hi : Inv cap tr.state) :
    mmapStep cap tr op = canonStep cap tr op := by
  obtain ⟨h1, h2, h3⟩ := hi
  have hc : 0 < cap := cap_pos hcap
  cases op with
  | enq1 v =>
    simp only [mmapStep, canonStep, mmap_enq1_eq_canon cap n hcap tr.state v ⟨h1, h2, h3⟩]
    by_cases hfree : 0 < freeSpace cap tr.state
    · rw [if_pos hfree]
      have hk : min 1 (freeSpace cap tr.state) = 1 := by omega
      simp [canonEnq, hk]
    · rw [if_neg hfree]
      have hk : min 1 (freeSpace cap tr.state) = 0 := by omega
      simp [canonEnq, hk, writeMod, Nat.mod_eq_of_lt h2]
  | enqB data =>
    simp only [mmapStep, canonStep,
      mmap_enqB_eq_canon cap n hcap tr.state data data.length ⟨h1, h2, h3⟩]
  | deq1 =>
    simp only [mmapStep, canonStep, mmap_deq1_eq_canon cap n hcap tr.state ⟨h1, h2, h3⟩]
    by_cases hocc : occupancy cap tr.state = 0
    · have hk : min 1 (occupancy cap tr.state) = 0 := by omega
      simp [canonDeq, hk]
    · have hk : min 1 (occupancy cap tr.state) = 1 := by omega
      have hr1 : List.range 1 = [0] := rfl
      simp [canonDeq, hk, hr1]
  | deqB count =>
    simp only [mmapStep, canonStep,
      mmap_deqB_eq_canon cap n hcap tr.state count ⟨h1, h2, h3⟩]

theorem mutexStep_eq_canonStep {α : Type} [Inhabited α] (cap : Nat)
    (tr : Trace α) (op : Op α) (hi : Inv cap tr.state) :
    mutexStep cap tr op = canonStep cap tr op := by
  obtain ⟨h1, h2, h3⟩ := hi
  have hc : 0 < cap := by omega
  cases op with
  | enq1 v =>
    simp only [mutexStep, canonStep, mutex_enq1_eq_canon cap tr.state v ⟨h1, h2, h3⟩]
    by_cases hfree : 0 < freeSpace cap tr.state
    · rw [if_pos hfree]
      have hk : min 1 (freeSpace cap tr.state) = 1 := by omega
      simp [canonEnq, hk]
    · rw [if_neg hfree]
      have hk : min 1 (freeSpace cap tr.state) = 0 := by omega
      simp [canonEnq, hk, writeMod, Nat.mod_eq_of_lt h2]
  | enqB data =>
    simp only [mutexStep, canonStep,
      mutex_enqB_eq_canon cap tr.state data data.length ⟨h1, h2, h3⟩]
  | deq1 =>
    simp only [mutexStep, canonStep, mutex_deq1_eq_canon cap tr.state ⟨h1, h2, h3⟩]
    by_cases hocc : occupancy cap tr.state = 0
    · have hk : min 1 (occupancy cap tr.state) = 0 := by omega
      simp [canonDeq, hk]
    · have hk : min 1 (occupancy cap tr.state) = 1 := by omega
      have hr1 : List.range 1 = [0] := rfl
      simp [canonDeq, hk, hr1]
  | deqB count =>
    simp only [mutexStep, canonStep,
      mutex_deqB_eq_canon cap tr.state count ⟨h1, h2, h3⟩]

theorem spscRun_eq_canonRun {α : Type} [Inhabited α] (cap n : Nat) (hcap : cap = 2 ^ n)
    (ops : List (Op α)) : ∀ tr : Trace α, Inv cap tr.state →
      spscRun cap tr ops = canonRun cap tr ops := by
  induction ops with
  | nil => exact fun tr hi => rfl
  | cons op ops ih =>
    intro tr hi
    show spscRun cap (spscStep cap tr op) ops = canonRun cap (canonStep cap tr op) ops
    rw [spscStep_eq_canonStep cap n hcap tr op hi]
    exact ih _ (canonStep_inv cap tr op hi)

theorem mmapRun_eq_canonRun {α : Type} [Inhabited α] (cap n : Nat) (hcap : cap = 2 ^ n)
    (ops : List (Op α)) : ∀ tr : Trace α, Inv cap tr.state →
      mmapRun cap tr ops = canonRun cap tr ops := by
  induction ops with
  | nil => exact fun tr hi => rfl
  | cons op ops ih =>
    intro tr hi
    show mmapRun cap (mmapStep cap tr op) ops = canonRun cap (canonStep cap tr op) ops
    rw [mmapStep_eq_canonStep cap n hcap tr op hi]
    exact ih _ (canonStep_inv cap tr op hi)

theorem mutexRun_eq_canonRun {α : Type} [Inhabited α] (cap : Nat)
    (ops : List (Op α)) : ∀ tr : Trace α, Inv cap tr.state →
      mutexRun cap tr ops = canonRun cap tr ops := by
  induction ops with
  | nil => exact fun tr hi => rfl
  | cons op ops ih =>
    intro tr hi
    show mutexRun cap (mutexStep cap tr op) ops = canonRun cap (canonStep cap tr op) ops
    rw [mutexStep_eq_canonStep cap tr op hi]
    exact ih _ (canonStep_inv cap tr op hi)

theorem inv_emptyState (α : Type) [Inhabited α] (cap : Nat) (hc : 0 < cap) :
    Inv cap (emptyState α cap) := by
  refine ⟨hc, hc, ?_⟩
  simp [emptyState]

theorem absQ_emptyState (α : Type) [Inhabited α] (cap : Nat) :
    absQ cap (emptyState α cap) = [] := by
  simp [absQ, emptyState, occupancy]

/-! ### Blocking-loop specifications (pure-timeout schedules) -/

theorem idTicks_cons (α : Type) (b : Bool) (checks : List Bool) :
    idTicks α (b :: checks) = ⟨b, id⟩ :: idTicks α checks := rfl

theorem spsc_deqB_go_spec {α : Type} [Inhabited α] (cap n : Nat) (hcap : cap = 2 ^ n)
    (count : Nat) :
    ∀ (checks : List Bool) (st : QState α) (total : Nat) (acc : List α), Inv cap st →
      total ≤ count →
      Inv cap (SPSC.dequeue_bulk_go cap count st total acc (idTicks α checks)).2.2 ∧
      total ≤ (SPSC.dequeue_bulk_go cap count st total acc (idTicks α checks)).1 ∧
      (SPSC.dequeue_bulk_go cap count st total acc (idTicks α checks)).1 ≤ count ∧
      (SPSC.dequeue_bulk_go cap count st total acc (idTicks α checks)).1 - total
        ≤ occupancy cap st ∧
      (SPSC.dequeue_bulk_go cap count st total acc (idTicks α checks)).2.1
        = acc ++ (absQ cap st).take
            ((SPSC.dequeue_bulk_go cap count st total acc (idTicks α checks)).1 - total) ∧
      absQ cap (SPSC.dequeue_bulk_go cap count st total acc (idTicks α checks)).2.2
        = (absQ cap st).drop
            ((SPSC.dequeue_bulk_go cap count st total acc (idTicks α checks)).1 - total) := by
  intro checks
  induction checks with
  | nil =>
    intro st total acc hi htc
    simp [idTicks, SPSC.dequeue_bulk_go, hi, htc]
  | cons b rest ih =>
    intro st total acc hi htc
    rw [idTicks_cons]
    by_cases hct : count ≤ total
    · simp [SPSC.dequeue_bulk_go, if_pos hct, hi]
      omega
    · by_cases hb : b = true
      · subst hb
        simp [SPSC.dequeue_bulk_go, if_neg hct, hi]
        omega
      · have hb2 : b = false := by
          cases b
          · rfl
          · exact absurd rfl hb
        subst hb2
        show _ ∧ _
        rw [show SPSC.dequeue_bulk_go cap count st total acc
            ((⟨false, id⟩ : Tick α) :: idTicks α rest)
          = (if count ≤ total then (total, acc, st)
             else
               let r := SPSC.try_dequeue_bulk cap st (count - total)
               if total + r.1 < count then
                 SPSC.dequeue_bulk_go cap count r.2.2 (total + r.1) (acc ++ r.2.1)
                   (idTicks α rest)
               else (total + r.1, acc ++ r.2.1, r.2.2)) from rfl]
        rw [if_neg hct]
        rw [spsc_deqB_eq_canon cap n hcap st (count - total) hi]
        have hkdef : (canonDeq cap st (count - total)).1
            = min (count - total) (occupancy cap st) := rfl
        have hkle : (canonDeq cap st (count - total)).1 ≤ count - total := by
          rw [hkdef]; omega
        have hkocc : (canonDeq cap st (count - total)).1 ≤ occupancy cap st := by
          rw [hkdef]; omega
        have hinv1 : Inv cap (canonDeq cap st (count - total)).2.2 :=
          canonDeq_inv cap st (count - total) hi
        have hout := canonDeq_out cap st (count - total)
        have habs := canonDeq_absQ cap st (count - total) hi
        have hlen : (absQ cap st).length = occupancy cap st := absQ_length cap st
        set k := (canonDeq cap st (count - total)).1 with hk
        by_cases hrec : total + k < count
        · rw [if_pos hrec]
          obtain ⟨g1, g2, g3, g4, g5, g6⟩ :=
            ih (canonDeq cap st (count - total)).2.2 (total + k)
              (acc ++ (canonDeq cap st (count - total)).2.1) hinv1 (by omega)
          set T := (SPSC.dequeue_bulk_go cap count (canonDeq cap st (count - total)).2.2
            (total + k) (acc ++ (canonDeq cap st (count - total)).2.1) (idTicks α rest)).1
            with hT
          have hocc1 : occupancy cap (canonDeq cap st (count - total)).2.2
              = occupancy cap st - k := by
            have := habs
            have e2 : (absQ cap (canonDeq cap st (count - total)).2.2).length
                = (absQ cap st).length - k := by rw [this]; simp
            rw [absQ_length, absQ_length] at e2
            omega
          refine ⟨g1, by omega, g3, by omega, ?_, ?_⟩
          · rw [g5, hout, habs, List.append_assoc]
            congr 1
            rw [← List.take_add]
            congr 1
            omega
          · rw [g6, habs, List.drop_drop]
            congr 1
            omega
        · rw [if_neg hrec]
          have e0 : total + k - total = k := by omega
          refine ⟨hinv1, by omega, by omega, by omega, ?_, ?_⟩
          · rw [e0, hout]
          · rw [e0, habs]

theorem spsc_enqB_go_spec {α : Type} [Inhabited α] (cap n : Nat) (hcap : cap = 2 ^ n)
    (data : List α) (count : Nat) (hdata : count ≤ data.length) :
    ∀ (checks : List Bool) (st : QState α) (total : Nat), Inv cap st → total ≤ count →
      Inv cap (SPSC.enqueue_bulk_go cap data count st total (idTicks α checks)).2.1 ∧
      total ≤ (SPSC.enqueue_bulk_go cap data count st total (idTicks α checks)).2.2 ∧
      (SPSC.enqueue_bulk_go cap data count st total (idTicks α checks)).2.2 ≤ count ∧
      ((SPSC.enqueue_bulk_go cap data count st total (idTicks α checks)).1 = true
        ↔ (SPSC.enqueue_bulk_go cap data count st total (idTicks α checks)).2.2 = count) ∧
      absQ cap (SPSC.enqueue_bulk_go cap data count st total (idTicks α checks)).2.1
        = absQ cap st ++ (data.drop total).take
            ((SPSC.enqueue_bulk_go cap data count st total (idTicks α checks)).2.2 - total) := by
  intro checks
  induction checks with
  | nil =>
    intro st total hi htc
    by_cases hct : count ≤ total
    · simp [idTicks, SPSC.enqueue_bulk_go, if_pos hct, hi]
      omega
    · simp [idTicks, SPSC.enqueue_bulk_go, if_neg hct, hi]
      omega
  | cons b rest ih =>
    intro st total hi htc
    rw [idTicks_cons]
    by_cases hct : count ≤ total
    · simp [SPSC.enqueue_bulk_go, if_pos hct, hi]
      omega
    · by_cases hb : b = true
      · subst hb
        simp [SPSC.enqueue_bulk_go, if_neg hct, hi]
        omega
      · have hb2 : b = false := by
          cases b
          · rfl
          · exact absurd rfl hb
        subst hb2
        show _ ∧ _
        rw [show SPSC.enqueue_bulk_go cap data count st total
            ((⟨false, id⟩ : Tick α) :: idTicks α rest)
          = (if count ≤ total then (true, st, total)
             else
               let r := SPSC.try_enqueue_bulk cap st (data.drop total) (count - total)
               if total + r.1 < count then
                 SPSC.enqueue_bulk_go cap data count r.2 (total + r.1) (idTicks α rest)
               else (true, r.2, total + r.1)) from rfl]
        rw [if_neg hct]
        rw [spsc_enqB_eq_canon cap n hcap st (data.drop total) (count - total) hi]
        have hdata2 : count - total ≤ (data.drop total).length := by
          rw [List.length_drop]
          omega
        have hkdef : (canonEnq cap st (data.drop total) (count - total)).1
            = min (count - total) (freeSpace cap st) := rfl
        have hkle : (canonEnq cap st (data.drop total) (count - total)).1
            ≤ count - total := by rw [hkdef]; omega
        have hinv1 : Inv cap (canonEnq cap st (data.drop total) (count - total)).2 :=
          canonEnq_inv cap st (data.drop total) (count - total) hi
        have habs := canonEnq_absQ cap st (data.drop total) (count - total) hi hdata2
        set k := (canonEnq cap st (data.drop total) (count - total)).1 with hk
        by_cases hrec : total + k < count
        · rw [if_pos hrec]
          obtain ⟨g1, g2, g3, g4, g5⟩ :=
            ih (canonEnq cap st (data.drop total) (count - total)).2 (total + k)
              hinv1 (by omega)
          set T := (SPSC.enqueue_bulk_go cap data count
            (canonEnq cap st (data.drop total) (count - total)).2 (total + k)
            (idTicks α rest)).2.2 with hT
          refine ⟨g1, by omega, g3, g4, ?_⟩
          rw [g5, habs, List.append_assoc]
          congr 1
          have hdd : data.drop (total + k) = (data.drop total).drop k := by
            rw [List.drop_drop, Nat.add_comm]
          rw [hdd, ← List.take_add]
          congr 1
          omega
        · rw [if_neg hrec]
          have e0 : total + k - total = k := by omega
          have hkc : total + k = count := by omega
          refine ⟨hinv1, ?_, ?_, ?_, ?_⟩
          · show total ≤ total + k
            omega
          · show total + k ≤ count
            omega
          · show true = true ↔ total + k = count
            simp [hkc]
          · show absQ cap (canonEnq cap st (data.drop total) (count - total)).2
              = absQ cap st ++ (data.drop total).take (total + k - total)
            rw [e0, habs]

theorem mutex_go_base {α : Type} (cap : Nat) (data : List α) (count : Nat)
    (st : QState α) (total : Nat) (sched : List (Tick α)) (hct : count ≤ total) :
    MutexQueue.enqueue_bulk_go cap data count st total sched = (true, st, total) := by
  rw [MutexQueue.enqueue_bulk_go.eq_def]
  dsimp only
  rw [dif_pos hct]

theorem mutex_go_wait_nil {α : Type} (cap : Nat) (data : List α) (count : Nat)
    (st : QState α) (total : Nat) (hct : ¬ count ≤ total)
    (hfree : MutexQueue.free_unlocked cap st = 0) :
    MutexQueue.enqueue_bulk_go cap data count st total [] = (false, st, total) := by
  rw [MutexQueue.enqueue_bulk_go.eq_def]
  dsimp only
  rw [dif_neg hct, dif_pos hfree]

theorem mutex_go_wait_cons {α : Type} (cap : Nat) (data : List α) (count : Nat)
    (st : QState α) (total : Nat) (t : Tick α) (rest : List (Tick α))
    (hct : ¬ count ≤ total) (hfree : MutexQueue.free_unlocked cap st = 0) :
    MutexQueue.enqueue_bulk_go cap data count st total (t :: rest)
      = if t.expired then (false, st, total)
        else MutexQueue.enqueue_bulk_go cap data count (t.env st) total rest := by
  rw [MutexQueue.enqueue_bulk_go.eq_def]
  dsimp only
  rw [dif_neg hct, dif_pos hfree]

theorem mutex_go_transfer {α : Type} (cap : Nat) (data : List α) (count : Nat)
    (st : QState α) (total : Nat) (sched : List (Tick α)) (hct : ¬ count ≤ total)
    (hfree : ¬ MutexQueue.free_unlocked cap st = 0) :
    MutexQueue.enqueue_bulk_go cap data count st total sched
      = MutexQueue.enqueue_bulk_go cap data count
          (MutexQueue.try_enqueue_bulk cap st (data.drop total) (count - total)).2
          (total + (MutexQueue.try_enqueue_bulk cap st (data.drop total) (count - total)).1)
          sched := by
  have hrem0 : ¬ (count - total = 0) := by omega
  have hn0 : ¬ ((if MutexQueue.free_unlocked cap st < count - total
      then MutexQueue.free_unlocked cap st else count - total) = 0) := by
    split <;> omega
  conv_lhs => rw [MutexQueue.enqueue_bulk_go.eq_def]
  dsimp only
  rw [dif_neg hct, dif_neg hfree]
  simp only [MutexQueue.try_enqueue_bulk]
  rw [if_neg hrem0, if_neg hn0]

theorem mutex_enqB_go_spec {α : Type} [Inhabited α] (cap : Nat) (data : List α)
    (count : Nat) :
    ∀ (m : Nat) (st : QState α) (total : Nat) (sched : List (Tick α)),
      sched.length + (count - total) ≤ m →
      count ≤ data.length → (∀ t ∈ sched, t.env = id) → Inv cap st → total ≤ count →
      Inv cap (MutexQueue.enqueue_bulk_go cap data count st total sched).2.1 ∧
      total ≤ (MutexQueue.enqueue_bulk_go cap data count st total sched).2.2 ∧
      (MutexQueue.enqueue_bulk_go cap data count st total sched).2.2 ≤ count ∧
      ((MutexQueue.enqueue_bulk_go cap data count st total sched).1 = true
        ↔ (MutexQueue.enqueue_bulk_go cap data count st total sched).2.2 = count) ∧
      absQ cap (MutexQueue.enqueue_bulk_go cap data count st total sched).2.1
        = absQ cap st ++ (data.drop total).take
            ((MutexQueue.enqueue_bulk_go cap data count st total sched).2.2 - total) := by
  intro m
  induction m with
  | zero =>
    intro st total sched hm hdata hsched hi htc
    have hct : count ≤ total := by omega
    rw [mutex_go_base cap data count st total sched hct]
    have hec : total = count := by omega
    simp [hi, hec]
  | succ m ihm =>
    intro st total sched hm hdata hsched hi htc
    by_cases hct : count ≤ total
    · rw [mutex_go_base cap data count st total sched hct]
      have hec : total = count := by omega
      simp [hi, hec]
    · by_cases hfree : MutexQueue.free_unlocked cap st = 0
      · cases sched with
        | nil =>
          rw [mutex_go_wait_nil cap data count st total hct hfree]
          simp [hi]
          omega
        | cons t rest =>
          rw [mutex_go_wait_cons cap data count st total t rest hct hfree]
          by_cases hexp : t.expired = true
          · rw [if_pos hexp]
            simp [hi]
            omega
          · rw [if_neg hexp]
            have henv : t.env = id := hsched t (by simp)
            rw [henv]
            have hm2 : rest.length + (count - total) ≤ m := by
              simp only [List.length_cons] at hm
              omega
            exact ihm st total rest hm2 hdata
              (fun t2 ht2 => hsched t2 (by simp [ht2])) hi htc
      · rw [mutex_go_transfer cap data count st total sched hct hfree]
        rw [mutex_enqB_eq_canon cap st (data.drop total) (count - total) hi]
        obtain ⟨h1, h2, h3⟩ := hi
        have hdata2 : count - total ≤ (data.drop total).length := by
          rw [List.length_drop]
          omega
        have hkle : (canonEnq cap st (data.drop total) (count - total)).1
            ≤ count - total := Nat.min_le_left _ _
        have hfs : MutexQueue.free_unlocked cap st = freeSpace cap st :=
          mutex_free_eq_freeSpace cap st h1 h2
        have hk1 : 1 ≤ (canonEnq cap st (data.drop total) (count - total)).1 := by
          show 1 ≤ min (count - total) (freeSpace cap st)
          omega
        have hinv1 : Inv cap (canonEnq cap st (data.drop total) (count - total)).2 :=
          canonEnq_inv cap st (data.drop total) (count - total) ⟨h1, h2, h3⟩
        have habs := canonEnq_absQ cap st (data.drop total) (count - total) ⟨h1, h2, h3⟩
          hdata2
        set k := (canonEnq cap st (data.drop total) (count - total)).1 with hk
        have hm2 : sched.length + (count - (total + k)) ≤ m := by omega
        obtain ⟨g1, g2, g3, g4, g5⟩ :=
          ihm (canonEnq cap st (data.drop total) (count - total)).2 (total + k) sched
            hm2 hdata hsched hinv1 (by omega)
        refine ⟨g1, by omega, g3, g4, ?_⟩
        rw [g5, habs, List.append_assoc]
        congr 1
        have hdd : data.drop (total + k) = (data.drop total).drop k := by
          rw [List.drop_drop, Nat.add_comm]
        rw [hdd, ← List.take_add]
        congr 1
        omega

/-! ### Claims -/

/-- C1, counterexample to the claim as stated: with `memfd_create` failing
and every other OS call succeeding, `MmapSPSC::create` does not return a
`(Sink, Source)` pair and does not report the error through its return
value — it propagates a thrown `std::runtime_error`. -/
theorem qbuf_C1_counterexample :
    MmapSPSC.create Nat 4 ⟨false, true, true, true, true⟩
      = MmapSPSC.CppResult.thrown "Failed to create memfd" := rfl

/-- C1 (amended): for every outcome of the five OS calls, `MmapSPSC::create`
either returns the `(Sink, Source)` pair over a fresh queue (all calls
succeeded) or reports the initialization failure by throwing
`std::runtime_error` with the first failing call's message; no handles are
produced on failure.  The error is not reported through a return value. -/
theorem qbuf_C1_create_reports_by_throwing (cap : Nat) (env : MmapSPSC.OsEnv) :
    MmapSPSC.create Nat cap env
      = if env.allOk then MmapSPSC.CppResult.ret ⟨emptyState Nat cap⟩
        else MmapSPSC.CppResult.thrown (MmapSPSC.failMsg env) := by
  obtain ⟨a, b, c, d, e⟩ := env
  cases a <;> cases b <;> cases c <;> cases d <;> cases e <;> rfl

/-- C3, counterexample to the claim as stated: the double-mapped bulk
operations do not treat the region as linear.  On a wrapping batch both the
writer and the reader perform a second, wrapped copy: at Capacity 4 with
`head = tail = 2` a bulk enqueue of 3 uses a second chunk of 1 slot, and at
`head = 3, tail = 2` a bulk dequeue of 3 uses a second chunk of 2 slots. -/
theorem qbuf_C3_counterexample :
    (MmapSPSC.enqueue_chunks 4 (⟨2, 2, [0, 0, 0, 0]⟩ : QState Nat) 3).2 = 1
  ∧ (MmapSPSC.dequeue_chunks 4 (⟨3, 2, [5, 0, 0, 7]⟩ : QState Nat) 3).2 = 2 := by
  exact ⟨rfl, rfl⟩

/-- C3 (amended): the double-mapped back-end's bulk `try_enqueue` and
`try_dequeue` perform a two-segment copy when the batch wraps, exactly like
the plain ring buffer, but their observable result equals the canonical
single linear copy read back modulo `Capacity` (`canonEnq` / `canonDeq`,
built on `writeMod`), and the published `tail` (respectively `head`) is
computed modulo `Capacity`. -/
theorem qbuf_C3_two_segment_equals_linear_mod {α : Type} [Inhabited α] (cap n : Nat)
    (hcap : cap = 2 ^ n) (st : QState α) (data : List α) (count : Nat) (hi : Inv cap st) :
    MmapSPSC.try_enqueue_bulk cap st data count = canonEnq cap st data count
  ∧ MmapSPSC.try_dequeue_bulk cap st count = canonDeq cap st count :=
  ⟨mmap_enqB_eq_canon cap n hcap st data count hi,
   mmap_deqB_eq_canon cap n hcap st count hi⟩

/-- C3 witness: the amended claim at Capacity 4, `head = tail = 2`, bulk
enqueue of `[1, 2, 3]` and bulk dequeue of 3. -/
theorem qbuf_C3_witness :
    MmapSPSC.try_enqueue_bulk 4 (⟨2, 2, [0, 0, 0, 0]⟩ : QState Nat) [1, 2, 3] 3
      = canonEnq 4 (⟨2, 2, [0, 0, 0, 0]⟩ : QState Nat) [1, 2, 3] 3
  ∧ MmapSPSC.try_dequeue_bulk 4 (⟨2, 2, [0, 0, 0, 0]⟩ : QState Nat) 3
      = canonDeq 4 (⟨2, 2, [0, 0, 0, 0]⟩ : QState Nat) 3 :=
  qbuf_C3_two_segment_equals_linear_mod 4 2 rfl ⟨2, 2, [0, 0, 0, 0]⟩ [1, 2, 3] 3
    (by decide)

/-- C7: a failed single-element `try_enqueue` transfers and modifies
nothing: it returns `false` exactly when `increment(tail) == head` (the full
condition), and on `false` the rvalue payload was never moved from and the
state (`head`, `tail`, every slot) is unchanged; symmetrically, bulk
`try_dequeue` on an empty queue (`head == tail`) returns 0, writes nothing
into the caller's buffer and leaves the state unchanged. -/
theorem qbuf_C7_failed_ops_touch_nothing {α : Type} [Inhabited α] (cap : Nat)
    (st : QState α) (v : α) (count : Nat) :
    ((SPSC.try_enqueue_one cap st v).ok = false
      ↔ SPSC.increment cap st.tail = st.head)
  ∧ ((SPSC.try_enqueue_one cap st v).ok = false →
      (SPSC.try_enqueue_one cap st v).moved = false
        ∧ (SPSC.try_enqueue_one cap st v).state = st)
  ∧ (st.head = st.tail → SPSC.try_dequeue_bulk cap st count = (0, [], st)) := by
  refine ⟨?_, ?_, ?_⟩
  · simp only [SPSC.try_enqueue_one]
    split_ifs with h
    · simp [h]
    · simp [h]
  · simp only [SPSC.try_enqueue_one]
    split_ifs with h
    · intro _
      exact ⟨rfl, rfl⟩
    · intro hcontra
      simp at hcontra
  · intro hempty
    simp only [SPSC.try_dequeue_bulk]
    by_cases hc0 : count = 0
    · rw [if_pos hc0]
    · rw [if_neg hc0]
      have hht : st.head ≤ st.tail := by omega
      rw [if_pos hht, ← hempty, Nat.sub_self]
      have hto : (if count < 0 then count else 0) = 0 := by split <;> omega
      rw [hto, if_pos rfl]

/-- C7 witness: at Capacity 4, a full queue (`head = 0`, `tail = 3`) rejects
a single enqueue leaving payload and state untouched, and an empty queue
(`head = tail = 2`) returns 0 from `try_dequeue(buf, 10)` with no writes. -/
theorem qbuf_C7_witness :
    ((SPSC.try_enqueue_one 4 (⟨0, 3, [1, 2, 3, 0]⟩ : QState Nat) 9).ok = false
      ↔ SPSC.increment 4 (⟨0, 3, ([1, 2, 3, 0] : List Nat)⟩ : QState Nat).tail
          = (⟨0, 3, ([1, 2, 3, 0] : List Nat)⟩ : QState Nat).head)
  ∧ ((SPSC.try_enqueue_one 4 (⟨0, 3, [1, 2, 3, 0]⟩ : QState Nat) 9).moved = false
      ∧ (SPSC.try_enqueue_one 4 (⟨0, 3, [1, 2, 3, 0]⟩ : QState Nat) 9).state
          = ⟨0, 3, [1, 2, 3, 0]⟩)
  ∧ SPSC.try_dequeue_bulk 4 (⟨2, 2, [0, 0, 0, 0]⟩ : QState Nat) 10
      = (0, [], (⟨2, 2, [0, 0, 0, 0]⟩ : QState Nat)) :=
  ⟨(qbuf_C7_failed_ops_touch_nothing 4 ⟨0, 3, [1, 2, 3, 0]⟩ 9 10).1,
   (qbuf_C7_failed_ops_touch_nothing 4 ⟨0, 3, [1, 2, 3, 0]⟩ 9 10).2.1 (by decide),
   (qbuf_C7_failed_ops_touch_nothing 4 (⟨2, 2, [0, 0, 0, 0]⟩ : QState Nat) 0 10).2.2 rfl⟩

/-- C10: every bulk operation called with `count = 0` returns immediately —
`try_enqueue(ptr, 0)` and `try_dequeue(buf, 0)` return 0, blocking
`enqueue(ptr, 0, timeout)` returns `true` and blocking
`dequeue(buf, 0, timeout)` returns 0 — without touching the queue state or
the caller's buffers, for every state and every schedule, including an
already-expired deadline. -/
theorem qbuf_C10_zero_count {α : Type} [Inhabited α] (cap : Nat) (st : QState α)
    (data : List α) (sched : List (Tick α)) :
    SPSC.try_enqueue_bulk cap st data 0 = (0, st)
  ∧ SPSC.try_dequeue_bulk cap st 0 = (0, [], st)
  ∧ SPSC.enqueue_bulk_timed cap st data 0 sched = (true, st, 0)
  ∧ SPSC.dequeue_bulk_timed cap st 0 sched = (0, [], st) :=
  ⟨rfl, rfl, rfl, rfl⟩

/-- C2, counterexample to the claim as stated: a blocking bulk dequeue
invoked with an already-expired deadline on a queue holding two elements —
where the try-operation would succeed and transfer 2 — returns timeout with
nothing transferred, because the bulk loops check the deadline before the
first attempt. -/
theorem qbuf_C2_counterexample :
    SPSC.dequeue_bulk_timed 4 (⟨0, 2, [10, 20, 0, 0]⟩ : QState Nat) 2
        [(⟨true, id⟩ : Tick Nat)]
      = (0, [], (⟨0, 2, [10, 20, 0, 0]⟩ : QState Nat))
  ∧ (SPSC.try_dequeue_bulk 4 (⟨0, 2, [10, 20, 0, 0]⟩ : QState Nat) 2).1 = 2 :=
  ⟨rfl, rfl⟩

/-- C2 (amended): the single-element blocking operations of the lock-free
engine attempt the try-operation before checking the deadline, so with an
already-expired deadline they still return success whenever the try
succeeds; the bulk blocking operations instead check the deadline before
each attempt, so with an already-expired deadline they return timeout
(`false`, respectively 0 transferred) without attempting the transfer, even
when the try-operation would succeed. -/
theorem qbuf_C2_blocking_loop_order {α : Type} [Inhabited α] :
    (∀ (cap : Nat) (st : QState α) (v : α) (sched : List (Tick α)),
        (SPSC.try_enqueue_one cap st v).ok = true →
        SPSC.enqueue_one_timed cap v st sched
          = (true, (SPSC.try_enqueue_one cap st v).state))
  ∧ (∀ (cap : Nat) (st : QState α) (w : α) (sched : List (Tick α)),
        (SPSC.try_dequeue_one cap st).1 = some w →
        SPSC.dequeue_one_timed cap st sched
          = (some w, (SPSC.try_dequeue_one cap st).2))
  ∧ (∀ (cap : Nat) (st : QState α) (data : List α) (count : Nat) (t : Tick α)
        (rest : List (Tick α)), count ≠ 0 → t.expired = true →
        SPSC.enqueue_bulk_timed cap st data count (t :: rest) = (false, st, 0))
  ∧ (∀ (cap : Nat) (st : QState α) (count : Nat) (t : Tick α)
        (rest : List (Tick α)), count ≠ 0 → t.expired = true →
        SPSC.dequeue_bulk_timed cap st count (t :: rest) = (0, [], st)) := by
  refine ⟨?_, ?_, ?_, ?_⟩
  · intro cap st v sched h
    cases sched with
    | nil => simp [SPSC.enqueue_one_timed, h]
    | cons t rest => simp [SPSC.enqueue_one_timed, h]
  · intro cap st w sched h
    cases sched with
    | nil =>
      show SPSC.try_dequeue_one cap st = (some w, (SPSC.try_dequeue_one cap st).2)
      rw [← h]
    | cons t rest =>
      show (match (SPSC.try_dequeue_one cap st).1 with
        | some v => (some v, (SPSC.try_dequeue_one cap st).2)
        | none =>
          if t.expired then (none, st)
          else SPSC.dequeue_one_timed cap (t.env st) rest)
        = (some w, (SPSC.try_dequeue_one cap st).2)
      rw [h]
  · intro cap st data count t rest hc0 hexp
    simp only [SPSC.enqueue_bulk_timed, if_neg hc0, SPSC.enqueue_bulk_go]
    rw [if_neg (by omega), if_pos hexp]
  · intro cap st count t rest hc0 hexp
    simp only [SPSC.dequeue_bulk_timed, if_neg hc0, SPSC.dequeue_bulk_go]
    rw [if_neg (by omega), if_pos hexp]

/-- C2 witness: with an expired first deadline check, a single dequeue from
a non-empty queue still succeeds and a single enqueue into a non-full queue
still succeeds, while the bulk blocking operations return timeout with
nothing transferred. -/
theorem qbuf_C2_witness :
    SPSC.enqueue_one_timed 4 (7 : Nat) (⟨0, 0, [0, 0, 0, 0]⟩ : QState Nat)
        [(⟨true, id⟩ : Tick Nat)]
      = (true, (SPSC.try_enqueue_one 4 (⟨0, 0, [0, 0, 0, 0]⟩ : QState Nat) 7).state)
  ∧ SPSC.dequeue_one_timed 4 (⟨0, 2, [10, 20, 0, 0]⟩ : QState Nat)
        [(⟨true, id⟩ : Tick Nat)]
      = (some 10, (SPSC.try_dequeue_one 4 (⟨0, 2, [10, 20, 0, 0]⟩ : QState Nat)).2)
  ∧ SPSC.enqueue_bulk_timed 4 (⟨0, 0, [0, 0, 0, 0]⟩ : QState Nat) [1, 2] 2
        [(⟨true, id⟩ : Tick Nat)]
      = (false, (⟨0, 0, [0, 0, 0, 0]⟩ : QState Nat), 0)
  ∧ SPSC.dequeue_bulk_timed 4 (⟨0, 2, [10, 20, 0, 0]⟩ : QState Nat) 2
        [(⟨true, id⟩ : Tick Nat)]
      = (0, [], (⟨0, 2, [10, 20, 0, 0]⟩ : QState Nat)) :=
  ⟨qbuf_C2_blocking_loop_order.1 4 ⟨0, 0, [0, 0, 0, 0]⟩ 7 [⟨true, id⟩] (by decide),
   qbuf_C2_blocking_loop_order.2.1 4 ⟨0, 2, [10, 20, 0, 0]⟩ 10 [⟨true, id⟩] (by decide),
   qbuf_C2_blocking_loop_order.2.2.1 4 ⟨0, 0, [0, 0, 0, 0]⟩ [1, 2] 2 ⟨true, id⟩ []
     (by decide) rfl,
   qbuf_C2_blocking_loop_order.2.2.2 4 ⟨0, 2, [10, 20, 0, 0]⟩ 2 ⟨true, id⟩ []
     (by decide) rfl⟩

/-- C6: on a fresh lock-free queue of power-of-two Capacity, the first
`Capacity − 1` single-element `try_enqueue` calls all succeed and the next
one returns `false`, for both the plain `SPSC` and the double-mapped
`MmapSPSC`; and a single `try_enqueue` fails exactly when
`next(tail) == head`, the full condition with one slot sacrificed. -/
theorem qbuf_C6_capacity_minus_one {α : Type} [Inhabited α] (cap n : Nat)
    (hcap : cap = 2 ^ n) (f : Nat → α) (st : QState α) (v : α) :
    (∀ k, k < cap - 1 → (SPSC.try_enqueue_one cap (enqN cap f k) (f k)).ok = true)
  ∧ (SPSC.try_enqueue_one cap (enqN cap f (cap - 1)) (f (cap - 1))).ok = false
  ∧ (∀ k, k < cap - 1 →
      (MmapSPSC.try_enqueue_one cap (mmapEnqN cap f k) (f k)).ok = true)
  ∧ (MmapSPSC.try_enqueue_one cap (mmapEnqN cap f (cap - 1)) (f (cap - 1))).ok = false
  ∧ ((SPSC.try_enqueue_one cap st v).ok = false
      ↔ SPSC.increment cap st.tail = st.head)
  ∧ ((MmapSPSC.try_enqueue_one cap st v).ok = false
      ↔ (st.tail + 1) &&& (cap - 1) = st.head) := by
  have hc : 0 < cap := cap_pos hcap
  have hstate : ∀ k, k ≤ cap - 1 →
      (enqN cap f k).head = 0 ∧ (enqN cap f k).tail = k
      ∧ (mmapEnqN cap f k).head = 0 ∧ (mmapEnqN cap f k).tail = k := by
    intro k
    induction k with
    | zero => intro _; exact ⟨rfl, rfl, rfl, rfl⟩
    | succ k ihk =>
      intro hk
      obtain ⟨e1, e2, e3, e4⟩ := ihk (by omega)
      have hnext : (k + 1) % cap = k + 1 := Nat.mod_eq_of_lt (by omega)
      constructor
      · show (SPSC.try_enqueue_one cap (enqN cap f k) (f k)).state.head = 0
        rw [SPSC.try_enqueue_one]
        simp only [SPSC.increment, mask_eq_mod n hcap, e1, e2, hnext]
        rw [if_neg (by omega)]
      constructor
      · show (SPSC.try_enqueue_one cap (enqN cap f k) (f k)).state.tail = k + 1
        rw [SPSC.try_enqueue_one]
        simp only [SPSC.increment, mask_eq_mod n hcap, e1, e2, hnext]
        rw [if_neg (by omega)]
      constructor
      · show (MmapSPSC.try_enqueue_one cap (mmapEnqN cap f k) (f k)).state.head = 0
        rw [MmapSPSC.try_enqueue_one]
        simp only [mask_eq_mod n hcap, e3, e4, hnext]
        rw [if_neg (by omega)]
      · show (MmapSPSC.try_enqueue_one cap (mmapEnqN cap f k) (f k)).state.tail = k + 1
        rw [MmapSPSC.try_enqueue_one]
        simp only [mask_eq_mod n hcap, e3, e4, hnext]
        rw [if_neg (by omega)]
  refine ⟨?_, ?_, ?_, ?_, ?_, ?_⟩
  · intro k hk
    obtain ⟨e1, e2, e3, e4⟩ := hstate k (by omega)
    rw [SPSC.try_enqueue_one]
    simp only [SPSC.increment, mask_eq_mod n hcap, e1, e2,
      Nat.mod_eq_of_lt (show k + 1 < cap by omega)]
    rw [if_neg (by omega)]
  · obtain ⟨e1, e2, e3, e4⟩ := hstate (cap - 1) (Nat.le_refl _)
    rw [SPSC.try_enqueue_one]
    simp only [SPSC.increment, mask_eq_mod n hcap, e1, e2]
    rw [show (cap - 1 + 1) % cap = 0 by
      rw [show cap - 1 + 1 = cap by omega, Nat.mod_self]]
    rw [if_pos rfl]
  · intro k hk
    obtain ⟨e1, e2, e3, e4⟩ := hstate k (by omega)
    rw [MmapSPSC.try_enqueue_one]
    simp only [mask_eq_mod n hcap, e3, e4,
      Nat.mod_eq_of_lt (show k + 1 < cap by omega)]
    rw [if_neg (by omega)]
  · obtain ⟨e1, e2, e3, e4⟩ := hstate (cap - 1) (Nat.le_refl _)
    rw [MmapSPSC.try_enqueue_one]
    simp only [mask_eq_mod n hcap, e3, e4]
    rw [show (cap - 1 + 1) % cap = 0 by
      rw [show cap - 1 + 1 = cap by omega, Nat.mod_self]]
    rw [if_pos rfl]
  · rw [SPSC.try_enqueue_one]
    split_ifs with h
    · simp [h]
    · simp [h]
  · rw [MmapSPSC.try_enqueue_one]
    split_ifs with h
    · simp [h]
    · simp [h]

/-- C6 witness: at Capacity 8 the seventh single enqueue on a fresh queue
succeeds and the eighth fails, for both lock-free back-ends. -/
theorem qbuf_C6_witness :
    (SPSC.try_enqueue_one 8 (enqN 8 (fun i => i) 6) ((fun i => i) 6)).ok = true
  ∧ (SPSC.try_enqueue_one 8 (enqN 8 (fun i => i) 7) ((fun i => i) 7)).ok = false
  ∧ (MmapSPSC.try_enqueue_one 8 (mmapEnqN 8 (fun i => i) 6) ((fun i => i) 6)).ok = true
  ∧ (MmapSPSC.try_enqueue_one 8 (mmapEnqN 8 (fun i => i) 7) ((fun i => i) 7)).ok
      = false :=
  ⟨(qbuf_C6_capacity_minus_one 8 3 rfl (fun i => i) ⟨0, 0, [0]⟩ 0).1 6 (by decide),
   (qbuf_C6_capacity_minus_one 8 3 rfl (fun i => i) ⟨0, 0, [0]⟩ 0).2.1,
   (qbuf_C6_capacity_minus_one 8 3 rfl (fun i => i) ⟨0, 0, [0]⟩ 0).2.2.1 6 (by decide),
   (qbuf_C6_capacity_minus_one 8 3 rfl (fun i => i) ⟨0, 0, [0]⟩ 0).2.2.2.1⟩

/-- C8: for every count and every valid queue state, bulk `try_enqueue`
returns `k ≤ count` with `k` also bounded by the free space before the
call, and exactly the first `k` source elements are appended to the queue
contents; bulk `try_dequeue` returns `k ≤ count` with `k` bounded by the
occupancy before the call, delivers exactly `k` elements — the first `k` of
the queue contents — and removes exactly those.  Both return a count, so a
partial transfer is a success, never an error. -/
theorem qbuf_C8_bulk_bounds {α : Type} [Inhabited α] (cap n : Nat) (hcap : cap = 2 ^ n)
    (st : QState α) (data : List α) (count : Nat) (hi : Inv cap st) :
    (SPSC.try_enqueue_bulk cap st data count).1 ≤ count
  ∧ (SPSC.try_enqueue_bulk cap st data count).1 ≤ freeSpace cap st
  ∧ (count ≤ data.length →
      absQ cap (SPSC.try_enqueue_bulk cap st data count).2
        = absQ cap st ++ data.take (SPSC.try_enqueue_bulk cap st data count).1)
  ∧ (SPSC.try_dequeue_bulk cap st count).1 ≤ count
  ∧ (SPSC.try_dequeue_bulk cap st count).1 ≤ occupancy cap st
  ∧ (SPSC.try_dequeue_bulk cap st count).2.1.length
      = (SPSC.try_dequeue_bulk cap st count).1
  ∧ (SPSC.try_dequeue_bulk cap st count).2.1
      = (absQ cap st).take (SPSC.try_dequeue_bulk cap st count).1
  ∧ absQ cap (SPSC.try_dequeue_bulk cap st count).2.2
      = (absQ cap st).drop (SPSC.try_dequeue_bulk cap st count).1 := by
  rw [spsc_enqB_eq_canon cap n hcap st data count hi,
    spsc_deqB_eq_canon cap n hcap st count hi]
  have h1 : (canonEnq cap st data count).1 = min count (freeSpace cap st) := rfl
  have h2 : (canonDeq cap st count).1 = min count (occupancy cap st) := rfl
  refine ⟨by rw [h1]; omega, by rw [h1]; omega,
    fun hd => canonEnq_absQ cap st data count hi hd,
    by rw [h2]; omega, by rw [h2]; omega, by simp [canonDeq],
    canonDeq_out cap st count, canonDeq_absQ cap st count hi⟩

/-- C8 witness: Capacity 4, wrapped state `head = 3`, `tail = 1` (occupancy
2, free space 1), bulk enqueue of 3 elements and bulk dequeue of 3. -/
theorem qbuf_C8_witness :
    (SPSC.try_enqueue_bulk 4 (⟨3, 1, [9, 8, 9, 7]⟩ : QState Nat) [5, 6, 7] 3).1 ≤ 3
  ∧ (SPSC.try_enqueue_bulk 4 (⟨3, 1, [9, 8, 9, 7]⟩ : QState Nat) [5, 6, 7] 3).1
      ≤ freeSpace 4 (⟨3, 1, [9, 8, 9, 7]⟩ : QState Nat)
  ∧ absQ 4 (SPSC.try_enqueue_bulk 4 (⟨3, 1, [9, 8, 9, 7]⟩ : QState Nat) [5, 6, 7] 3).2
      = absQ 4 (⟨3, 1, [9, 8, 9, 7]⟩ : QState Nat)
        ++ List.take (SPSC.try_enqueue_bulk 4 (⟨3, 1, [9, 8, 9, 7]⟩ : QState Nat)
             [5, 6, 7] 3).1 [5, 6, 7]
  ∧ (SPSC.try_dequeue_bulk 4 (⟨3, 1, [9, 8, 9, 7]⟩ : QState Nat) 3).1 ≤ 3
  ∧ (SPSC.try_dequeue_bulk 4 (⟨3, 1, [9, 8, 9, 7]⟩ : QState Nat) 3).1
      ≤ occupancy 4 (⟨3, 1, [9, 8, 9, 7]⟩ : QState Nat)
  ∧ (SPSC.try_dequeue_bulk 4 (⟨3, 1, [9, 8, 9, 7]⟩ : QState Nat) 3).2.1.length
      = (SPSC.try_dequeue_bulk 4 (⟨3, 1, [9, 8, 9, 7]⟩ : QState Nat) 3).1
  ∧ (SPSC.try_dequeue_bulk 4 (⟨3, 1, [9, 8, 9, 7]⟩ : QState Nat) 3).2.1
      = (absQ 4 (⟨3, 1, [9, 8, 9, 7]⟩ : QState Nat)).take
          (SPSC.try_dequeue_bulk 4 (⟨3, 1, [9, 8, 9, 7]⟩ : QState Nat) 3).1
  ∧ absQ 4 (SPSC.try_dequeue_bulk 4 (⟨3, 1, [9, 8, 9, 7]⟩ : QState Nat) 3).2.2
      = (absQ 4 (⟨3, 1, [9, 8, 9, 7]⟩ : QState Nat)).drop
          (SPSC.try_dequeue_bulk 4 (⟨3, 1, [9, 8, 9, 7]⟩ : QState Nat) 3).1 := by
  obtain ⟨g1, g2, g3, g4, g5, g6, g7, g8⟩ :=
    qbuf_C8_bulk_bounds 4 2 rfl (⟨3, 1, [9, 8, 9, 7]⟩ : QState Nat) [5, 6, 7] 3
      (by decide)
  exact ⟨g1, g2, g3 (by decide), g4, g5, g6, g7, g8⟩

/-- C9: after every completed try-operation of every back-end the indices
stay in `[0, Capacity)` and the buffer keeps its `Capacity` slots —
including across wrap-around — and the queue contents are empty exactly
when `head == tail`. -/
theorem qbuf_C9_invariants {α : Type} [Inhabited α] (cap n capm : Nat)
    (hcap : cap = 2 ^ n) (st stm : QState α) (v : α) (data : List α) (count : Nat)
    (hi : Inv cap st) (him : Inv capm stm) :
    Inv cap (SPSC.try_enqueue_one cap st v).state
  ∧ Inv cap (SPSC.try_enqueue_bulk cap st data count).2
  ∧ Inv cap (SPSC.try_dequeue_one cap st).2
  ∧ Inv cap (SPSC.try_dequeue_bulk cap st count).2.2
  ∧ Inv cap (MmapSPSC.try_enqueue_one cap st v).state
  ∧ Inv cap (MmapSPSC.try_enqueue_bulk cap st data count).2
  ∧ Inv cap (MmapSPSC.try_dequeue_one cap st).2
  ∧ Inv cap (MmapSPSC.try_dequeue_bulk cap st count).2.2
  ∧ Inv capm (MutexQueue.try_enqueue_one capm stm v).state
  ∧ Inv capm (MutexQueue.try_enqueue_bulk capm stm data count).2
  ∧ Inv capm (MutexQueue.try_dequeue_one capm stm).2
  ∧ Inv capm (MutexQueue.try_dequeue_bulk capm stm count).2.2
  ∧ (absQ cap st = [] ↔ st.head = st.tail)
  ∧ (absQ capm stm = [] ↔ stm.head = stm.tail) := by
  refine ⟨?_, ?_, ?_, ?_, ?_, ?_, ?_, ?_, ?_, ?_, ?_, ?_, ?_, ?_⟩
  · rw [spsc_enq1_eq_canon cap n hcap st v hi]
    split_ifs
    · exact canonEnq_inv cap st [v] 1 hi
    · exact hi
  · rw [spsc_enqB_eq_canon cap n hcap st data count hi]
    exact canonEnq_inv cap st data count hi
  · rw [spsc_deq1_eq_canon cap n hcap st hi]
    exact canonDeq_inv cap st 1 hi
  · rw [spsc_deqB_eq_canon cap n hcap st count hi]
    exact canonDeq_inv cap st count hi
  · rw [mmap_enq1_eq_canon cap n hcap st v hi]
    split_ifs
    · exact canonEnq_inv cap st [v] 1 hi
    · exact hi
  · rw [mmap_enqB_eq_canon cap n hcap st data count hi]
    exact canonEnq_inv cap st data count hi
  · rw [mmap_deq1_eq_canon cap n hcap st hi]
    exact canonDeq_inv cap st 1 hi
  · rw [mmap_deqB_eq_canon cap n hcap st count hi]
    exact canonDeq_inv cap st count hi
  · rw [mutex_enq1_eq_canon capm stm v him]
    split_ifs
    · exact canonEnq_inv capm stm [v] 1 him
    · exact him
  · rw [mutex_enqB_eq_canon capm stm data count him]
    exact canonEnq_inv capm stm data count him
  · rw [mutex_deq1_eq_canon capm stm him]
    exact canonDeq_inv capm stm 1 him
  · rw [mutex_deqB_eq_canon capm stm count him]
    exact canonDeq_inv capm stm count him
  · exact absQ_nil_iff cap st hi
  · exact absQ_nil_iff capm stm him

/-- C9 witness: the invariants at Capacity 4 (lock-free) and Capacity 3
(mutex), on states whose next operation wraps past `Capacity − 1`. -/
theorem qbuf_C9_witness :
    Inv 4 (SPSC.try_enqueue_one 4 (⟨0, 3, [1, 2, 3, 0]⟩ : QState Nat) 9).state
  ∧ Inv 4 (SPSC.try_enqueue_bulk 4 (⟨0, 3, [1, 2, 3, 0]⟩ : QState Nat) [9] 1).2
  ∧ Inv 4 (SPSC.try_dequeue_one 4 (⟨0, 3, [1, 2, 3, 0]⟩ : QState Nat)).2
  ∧ Inv 4 (SPSC.try_dequeue_bulk 4 (⟨0, 3, [1, 2, 3, 0]⟩ : QState Nat) 1).2.2
  ∧ Inv 4 (MmapSPSC.try_enqueue_one 4 (⟨0, 3, [1, 2, 3, 0]⟩ : QState Nat) 9).state
  ∧ Inv 4 (MmapSPSC.try_enqueue_bulk 4 (⟨0, 3, [1, 2, 3, 0]⟩ : QState Nat) [9] 1).2
  ∧ Inv 4 (MmapSPSC.try_dequeue_one 4 (⟨0, 3, [1, 2, 3, 0]⟩ : QState Nat)).2
  ∧ Inv 4 (MmapSPSC.try_dequeue_bulk 4 (⟨0, 3, [1, 2, 3, 0]⟩ : QState Nat) 1).2.2
  ∧ Inv 3 (MutexQueue.try_enqueue_one 3 (⟨0, 2, [1, 2, 0]⟩ : QState Nat) 9).state
  ∧ Inv 3 (MutexQueue.try_enqueue_bulk 3 (⟨0, 2, [1, 2, 0]⟩ : QState Nat) [9] 1).2
  ∧ Inv 3 (MutexQueue.try_dequeue_one 3 (⟨0, 2, [1, 2, 0]⟩ : QState Nat)).2
  ∧ Inv 3 (MutexQueue.try_dequeue_bulk 3 (⟨0, 2, [1, 2, 0]⟩ : QState Nat) 1).2.2
  ∧ (absQ 4 (⟨0, 3, [1, 2, 3, 0]⟩ : QState Nat) = []
      ↔ (⟨0, 3, ([1, 2, 3, 0] : List Nat)⟩ : QState Nat).head
          = (⟨0, 3, ([1, 2, 3, 0] : List Nat)⟩ : QState Nat).tail)
  ∧ (absQ 3 (⟨0, 2, [1, 2, 0]⟩ : QState Nat) = []
      ↔ (⟨0, 2, ([1, 2, 0] : List Nat)⟩ : QState Nat).head
          = (⟨0, 2, ([1, 2, 0] : List Nat)⟩ : QState Nat).tail) :=
  qbuf_C9_invariants 4 2 3 rfl ⟨0, 3, [1, 2, 3, 0]⟩ ⟨0, 2, [1, 2, 0]⟩ 9 [9] 1
    (by decide) (by decide)

/-- C4: a bulk blocking operation cancelled by timeout expiry returns the
partial progress made so far.  A blocking bulk dequeue returns exactly the
number of elements written into the caller's buffer (possibly less than
`count`), and those are the first elements of the queue; a blocking bulk
enqueue (lock-free and mutex) returns `true` exactly when all `count`
elements were stored, and on timeout the elements already transferred
remain stored in the queue, so the partial progress is reported by the
queue state.  Schedules are pure-timeout (`idTicks`): the deadline check
results vary, the opposite thread is idle. -/
theorem qbuf_C4_partial_progress {α : Type} [Inhabited α] :
    (∀ (cap n : Nat), cap = 2 ^ n → ∀ (st : QState α) (count : Nat)
        (checks : List Bool), Inv cap st →
        (SPSC.dequeue_bulk_timed cap st count (idTicks α checks)).2.1.length
          = (SPSC.dequeue_bulk_timed cap st count (idTicks α checks)).1
      ∧ (SPSC.dequeue_bulk_timed cap st count (idTicks α checks)).1 ≤ count
      ∧ (SPSC.dequeue_bulk_timed cap st count (idTicks α checks)).2.1
          = (absQ cap st).take
              (SPSC.dequeue_bulk_timed cap st count (idTicks α checks)).1)
  ∧ (∀ (cap n : Nat), cap = 2 ^ n → ∀ (st : QState α) (data : List α) (count : Nat)
        (checks : List Bool), Inv cap st → count ≤ data.length →
        ((SPSC.enqueue_bulk_timed cap st data count (idTicks α checks)).1 = true
          ↔ (SPSC.enqueue_bulk_timed cap st data count (idTicks α checks)).2.2 = count)
      ∧ (SPSC.enqueue_bulk_timed cap st data count (idTicks α checks)).2.2 ≤ count
      ∧ absQ cap (SPSC.enqueue_bulk_timed cap st data count (idTicks α checks)).2.1
          = absQ cap st ++ data.take
              (SPSC.enqueue_bulk_timed cap st data count (idTicks α checks)).2.2)
  ∧ (∀ (capm : Nat) (stm : QState α) (data : List α) (count : Nat)
        (checks : List Bool), Inv capm stm → count ≤ data.length →
        ((MutexQueue.enqueue_bulk_timed capm stm data count (idTicks α checks)).1 = true
          ↔ (MutexQueue.enqueue_bulk_timed capm stm data count
              (idTicks α checks)).2.2 = count)
      ∧ (MutexQueue.enqueue_bulk_timed capm stm data count (idTicks α checks)).2.2
          ≤ count
      ∧ absQ capm
            (MutexQueue.enqueue_bulk_timed capm stm data count (idTicks α checks)).2.1
          = absQ capm stm ++ data.take
              (MutexQueue.enqueue_bulk_timed capm stm data count
                (idTicks α checks)).2.2) := by
  refine ⟨?_, ?_, ?_⟩
  · intro cap n hcap st count checks hi
    by_cases hc0 : count = 0
    · subst hc0
      simp [SPSC.dequeue_bulk_timed]
    · simp only [SPSC.dequeue_bulk_timed, if_neg hc0]
      obtain ⟨g1, g2, g3, g4, g5, g6⟩ :=
        spsc_deqB_go_spec cap n hcap count checks st 0 [] hi (Nat.zero_le _)
      refine ⟨?_, g3, ?_⟩
      · rw [g5]
        simp only [List.nil_append, List.length_take, absQ_length]
        omega
      · rw [g5]
        simp
  · intro cap n hcap st data count checks hi hdata
    by_cases hc0 : count = 0
    · subst hc0
      simp [SPSC.enqueue_bulk_timed]
    · simp only [SPSC.enqueue_bulk_timed, if_neg hc0]
      obtain ⟨g1, g2, g3, g4, g5⟩ :=
        spsc_enqB_go_spec cap n hcap data count hdata checks st 0 hi (Nat.zero_le _)
      refine ⟨g4, g3, ?_⟩
      rw [g5]
      simp
  · intro capm stm data count checks hi hdata
    by_cases hc0 : count = 0
    · subst hc0
      simp [MutexQueue.enqueue_bulk_timed]
    · simp only [MutexQueue.enqueue_bulk_timed, if_neg hc0]
      have henv : ∀ t ∈ idTicks α checks, t.env = id := by
        intro t ht
        simp only [idTicks, List.mem_map] at ht
        obtain ⟨b, _, rfl⟩ := ht
        rfl
      obtain ⟨g1, g2, g3, g4, g5⟩ :=
        mutex_enqB_go_spec capm data count ((idTicks α checks).length + count) stm 0
          (idTicks α checks) (by omega) hdata henv hi (Nat.zero_le _)
      refine ⟨g4, g3, ?_⟩
      rw [g5]
      simp

/-- C4 witness: Capacity 4 with two elements queued, a blocking bulk
dequeue of 5 cancelled after one wakeup, and blocking bulk enqueues of 5
into empty queues (lock-free and mutex) cancelled by timeout, all showing
partial progress. -/
theorem qbuf_C4_witness :
    ((SPSC.dequeue_bulk_timed 4 (⟨0, 2, [10, 20, 0, 0]⟩ : QState Nat) 5
        (idTicks Nat [false, true])).2.1.length
      = (SPSC.dequeue_bulk_timed 4 (⟨0, 2, [10, 20, 0, 0]⟩ : QState Nat) 5
          (idTicks Nat [false, true])).1
    ∧ (SPSC.dequeue_bulk_timed 4 (⟨0, 2, [10, 20, 0, 0]⟩ : QState Nat) 5
        (idTicks Nat [false, true])).1 ≤ 5
    ∧ (SPSC.dequeue_bulk_timed 4 (⟨0, 2, [10, 20, 0, 0]⟩ : QState Nat) 5
        (idTicks Nat [false, true])).2.1
      = (absQ 4 (⟨0, 2, [10, 20, 0, 0]⟩ : QState Nat)).take
          (SPSC.dequeue_bulk_timed 4 (⟨0, 2, [10, 20, 0, 0]⟩ : QState Nat) 5
            (idTicks Nat [false, true])).1)
  ∧ (((SPSC.enqueue_bulk_timed 4 (⟨0, 0, [0, 0, 0, 0]⟩ : QState Nat) [1, 2, 3, 4, 5] 5
        (idTicks Nat [false, true])).1 = true
      ↔ (SPSC.enqueue_bulk_timed 4 (⟨0, 0, [0, 0, 0, 0]⟩ : QState Nat) [1, 2, 3, 4, 5] 5
          (idTicks Nat [false, true])).2.2 = 5)
    ∧ (SPSC.enqueue_bulk_timed 4 (⟨0, 0, [0, 0, 0, 0]⟩ : QState Nat) [1, 2, 3, 4, 5] 5
        (idTicks Nat [false, true])).2.2 ≤ 5
    ∧ absQ 4 (SPSC.enqueue_bulk_timed 4 (⟨0, 0, [0, 0, 0, 0]⟩ : QState Nat)
          [1, 2, 3, 4, 5] 5 (idTicks Nat [false, true])).2.1
      = absQ 4 (⟨0, 0, [0, 0, 0, 0]⟩ : QState Nat) ++ List.take
          ((SPSC.enqueue_bulk_timed 4 (⟨0, 0, [0, 0, 0, 0]⟩ : QState Nat) [1, 2, 3, 4, 5]
            5 (idTicks Nat [false, true])).2.2) [1, 2, 3, 4, 5])
  ∧ (((MutexQueue.enqueue_bulk_timed 4 (⟨0, 0, [0, 0, 0, 0]⟩ : QState Nat)
        [1, 2, 3, 4, 5] 5 (idTicks Nat [true])).1 = true
      ↔ (MutexQueue.enqueue_bulk_timed 4 (⟨0, 0, [0, 0, 0, 0]⟩ : QState Nat)
          [1, 2, 3, 4, 5] 5 (idTicks Nat [true])).2.2 = 5)
    ∧ (MutexQueue.enqueue_bulk_timed 4 (⟨0, 0, [0, 0, 0, 0]⟩ : QState Nat)
        [1, 2, 3, 4, 5] 5 (idTicks Nat [true])).2.2 ≤ 5
    ∧ absQ 4 (MutexQueue.enqueue_bulk_timed 4 (⟨0, 0, [0, 0, 0, 0]⟩ : QState Nat)
          [1, 2, 3, 4, 5] 5 (idTicks Nat [true])).2.1
      = absQ 4 (⟨0, 0, [0, 0, 0, 0]⟩ : QState Nat) ++ List.take
          ((MutexQueue.enqueue_bulk_timed 4 (⟨0, 0, [0, 0, 0, 0]⟩ : QState Nat)
            [1, 2, 3, 4, 5] 5 (idTicks Nat [true])).2.2) [1, 2, 3, 4, 5]) :=
  ⟨qbuf_C4_partial_progress.1 4 2 rfl ⟨0, 2, [10, 20, 0, 0]⟩ 5 [false, true] (by decide),
   qbuf_C4_partial_progress.2.1 4 2 rfl ⟨0, 0, [0, 0, 0, 0]⟩ [1, 2, 3, 4, 5] 5
     [false, true] (by decide) (by decide),
   qbuf_C4_partial_progress.2.2 4 ⟨0, 0, [0, 0, 0, 0]⟩ [1, 2, 3, 4, 5] 5 [true]
     (by decide) (by decide)⟩

/-- C5: for every interleaving of single-element and bulk operations
through the Sink and the Source, starting from a fresh queue, the sequence
of elements returned by successful dequeues is a prefix of the sequence of
elements accepted by successful enqueues — no reordering, duplication or
loss — for all three back-ends. -/
theorem qbuf_C5_fifo {α : Type} [Inhabited α] (ops : List (Op α)) (cap n capm : Nat)
    (hcap : cap = 2 ^ n) (hm : 2 ≤ capm) :
    (∃ rest, (spscRun cap (initTrace α cap) ops).enqs
        = (spscRun cap (initTrace α cap) ops).deqs ++ rest)
  ∧ (∃ rest, (mmapRun cap (initTrace α cap) ops).enqs
        = (mmapRun cap (initTrace α cap) ops).deqs ++ rest)
  ∧ (∃ rest, (mutexRun capm (initTrace α capm) ops).enqs
        = (mutexRun capm (initTrace α capm) ops).deqs ++ rest) := by
  have hc : 0 < cap := cap_pos hcap
  have hinv : Inv cap (initTrace α cap).state := inv_emptyState α cap hc
  have hinvm : Inv capm (initTrace α capm).state := inv_emptyState α capm (by omega)
  have hfifo : (initTrace α cap).enqs
      = (initTrace α cap).deqs ++ absQ cap (initTrace α cap).state := by
    show ([] : List α) = [] ++ absQ cap (emptyState α cap)
    rw [absQ_emptyState]
    rfl
  have hfifom : (initTrace α capm).enqs
      = (initTrace α capm).deqs ++ absQ capm (initTrace α capm).state := by
    show ([] : List α) = [] ++ absQ capm (emptyState α capm)
    rw [absQ_emptyState]
    rfl
  obtain ⟨_, h2⟩ := canonRun_spec cap ops (initTrace α cap) hinv hfifo
  obtain ⟨_, h2m⟩ := canonRun_spec capm ops (initTrace α capm) hinvm hfifom
  refine ⟨?_, ?_, ?_⟩
  · rw [spscRun_eq_canonRun cap n hcap ops (initTrace α cap) hinv]
    exact ⟨_, h2⟩
  · rw [mmapRun_eq_canonRun cap n hcap ops (initTrace α cap) hinv]
    exact ⟨_, h2⟩
  · rw [mutexRun_eq_canonRun capm ops (initTrace α capm) hinvm]
    exact ⟨_, h2m⟩

/-- C5 witness: a concrete interleaving of single and bulk enqueues and
dequeues at Capacity 4 (lock-free) and Capacity 2 (mutex). -/
theorem qbuf_C5_witness :
    (∃ rest, (spscRun 4 (initTrace Nat 4)
        [Op.enq1 10, Op.enqB [20, 30, 40, 50], Op.deq1, Op.deqB 2, Op.enq1 60]).enqs
      = (spscRun 4 (initTrace Nat 4)
          [Op.enq1 10, Op.enqB [20, 30, 40, 50], Op.deq1, Op.deqB 2, Op.enq1 60]).deqs
        ++ rest)
  ∧ (∃ rest, (mmapRun 4 (initTrace Nat 4)
        [Op.enq1 10, Op.enqB [20, 30, 40, 50], Op.deq1, Op.deqB 2, Op.enq1 60]).enqs
      = (mmapRun 4 (initTrace Nat 4)
          [Op.enq1 10, Op.enqB [20, 30, 40, 50], Op.deq1, Op.deqB 2, Op.enq1 60]).deqs
        ++ rest)
  ∧ (∃ rest, (mutexRun 2 (initTrace Nat 2)
        [Op.enq1 10, Op.enqB [20, 30, 40, 50], Op.deq1, Op.deqB 2, Op.enq1 60]).enqs
      = (mutexRun 2 (initTrace Nat 2)
          [Op.enq1 10, Op.enqB [20, 30, 40, 50], Op.deq1, Op.deqB 2, Op.enq1 60]).deqs
        ++ rest) :=
  qbuf_C5_fifo [Op.enq1 10, Op.enqB [20, 30, 40, 50], Op.deq1, Op.deqB 2, Op.enq1 60]
    4 2 2 rfl (by decide)

end Qbuf
